import Mathlib

/-!
Verification development for PyTierra, an artificial-life simulator in the
lineage of Tom Ray's Tierra.  The Python modules `soup.py`, `cell.py`,
`cpu.py`, `scheduler.py`, `reaper.py`, `genebank.py`, `mutations.py`,
`instructions.py` and `simulation.py` are shallowly embedded below:
mutable objects become records threaded through state-passing functions,
Python `int` becomes `Int` (or `Nat` where the source value is always a
non-negative count or address), Python `float` configuration values become
exact rationals, and the global `random` generator becomes an explicit
stream of draws carried in the state.  Creatures are identified by the
stable integer ids the source stores in `Cell._id`; the scheduler, reaper
and owner index hold ids, mirroring the object references of the source.
-/

namespace PyTierra

/-- Exact fraction `num / den` (`den` positive by convention).  Python
`float` configuration values and probability draws are modelled as exact
rationals; comparisons are by cross-multiplication, so no normalization
is needed. -/
structure Frac where
  num : Int
  den : Nat
  deriving DecidableEq

/-- The fraction `n / 1`. -/
def Frac.ofNat (n : Nat) : Frac :=
  ⟨n, 1⟩

/-- Value-level strict order on fractions. -/
def Frac.ltB (a b : Frac) : Bool :=
  a.num * b.den < b.num * a.den

/-- Value-level non-strict order on fractions. -/
def Frac.leB (a b : Frac) : Bool :=
  a.num * b.den ≤ b.num * a.den

/-- Is the fraction zero. -/
def Frac.isZero (a : Frac) : Bool :=
  a.num = 0

/-- Is the fraction strictly positive. -/
def Frac.isPos (a : Frac) : Bool :=
  0 < a.num

/-- Is the fraction strictly negative. -/
def Frac.isNeg (a : Frac) : Bool :=
  a.num < 0

/-- Fraction product. -/
def Frac.mul (a b : Frac) : Frac :=
  ⟨a.num * b.num, a.den * b.den⟩

/-- Fraction sum. -/
def Frac.add (a b : Frac) : Frac :=
  ⟨a.num * b.den + b.num * a.den, a.den * b.den⟩

/-- Absolute value. -/
def Frac.abs (a : Frac) : Frac :=
  ⟨|a.num|, a.den⟩

/-- Python `int(...)` applied to a fraction: truncation toward zero. -/
def Frac.trunc (a : Frac) : Int :=
  if 0 ≤ a.num then ((a.num.toNat / a.den : Nat) : Int)
  else -((a.num.natAbs / a.den : Nat) : Int)

/-- Stream of pseudo-random draws standing for Python's seeded global
`random` generator: one stream of integer draws (for `randint`, `choice`
and `randrange`) and one of rational draws in `[0,1)` (for `random()`).
A fixed seed fixes both streams. -/
structure Rng where
  ints : List Nat
  floats : List Frac
  deriving DecidableEq

/-- Draw the next integer from the stream (Python `random.getrandbits`
family); an exhausted stream yields 0. -/
def Rng.nextInt (r : Rng) : Nat × Rng :=
  (r.ints.headD 0, ⟨r.ints.tail, r.floats⟩)

/-- Draw the next rational in `[0,1)` (Python `random.random()`). -/
def Rng.nextFloat (r : Rng) : Frac × Rng :=
  (r.floats.headD (Frac.ofNat 0), ⟨r.ints, r.floats.tail⟩)

/-- Python `random.randint(a, b)`: uniform on `[a, b]`, modelled as the
next stream value reduced into the interval. -/
def Rng.randint (r : Rng) (a b : Nat) : Nat × Rng :=
  let (v, r') := r.nextInt
  (a + v % (b - a + 1), r')

/-- A contiguous region of soup memory (`cell.py`, `MemRegion`). -/
structure MemRegion where
  pos : Nat
  size : Nat
  deriving DecidableEq

/-- Per-creature CPU state (`cpu.py`).  Registers are unbounded signed
integers, as in Python; the stack is a 10-slot ring indexed by `sp`. -/
structure CPU where
  ax : Int
  bx : Int
  cx : Int
  dx : Int
  ip : Nat
  sp : Nat
  stack : List Int
  flag_e : Bool
  flag_s : Bool
  flag_z : Bool
  ip_modified : Bool
  deriving DecidableEq

/-- Fresh CPU as built by `CPU.__init__`. -/
def CPU.init : CPU :=
  ⟨0, 0, 0, 0, 0, 0, List.replicate 10 0, false, false, false, false⟩

/-- `CPU.push`: advance `sp` mod 10, then overwrite that slot. -/
def CPU.push (c : CPU) (v : Int) : CPU :=
  let sp' := (c.sp + 1) % 10
  { c with sp := sp', stack := c.stack.set sp' v }

/-- `CPU.pop`: read the slot at `sp`, then retreat `sp` mod 10. -/
def CPU.pop (c : CPU) : Int × CPU :=
  (c.stack.getD c.sp 0, { c with sp := (c.sp + 9) % 10 })

/-- `CPU.set_flags`: `Z := v == 0`, `S := v < 0`, `E := false`. -/
def CPU.setFlags (c : CPU) (v : Int) : CPU :=
  { c with flag_z := v = 0, flag_s := v < 0, flag_e := false }

/-- Demographic counters carried by each creature (`cell.py`). -/
structure Demographics where
  genotype : String
  parent_genotype : String
  fecundity : Nat
  inst_executed : Nat
  rep_inst : Nat
  mutations : Nat
  mov_daught : Nat
  mov_off_min : Nat
  mov_off_max : Nat
  birth_time : Nat
  deriving DecidableEq

/-- Fresh demographics (all dataclass defaults). -/
def Demographics.init : Demographics :=
  ⟨"", "", 0, 0, 0, 0, 0, 0, 0, 0⟩

/-- A creature (`cell.py`, class `Cell`): a CPU, a mother region, an
optional daughter region, demographics and the alive flag. -/
structure Cell where
  cpu : CPU
  mm : MemRegion
  md : Option MemRegion
  d : Demographics
  alive : Bool
  deriving DecidableEq

/-- `Cell.__init__(pos, size)`. -/
def Cell.init (pos size : Nat) : Cell :=
  ⟨CPU.init, ⟨pos, size⟩, none, Demographics.init, true⟩

/-- `Cell.owns_mother`: does `addr` fall in the mother region, with
wrap-around. -/
def Cell.ownsMother (c : Cell) (addr : Int) (soupSize : Nat) : Bool :=
  let a := (addr.emod soupSize).toNat
  let start := c.mm.pos % soupSize
  let stop := (c.mm.pos + c.mm.size) % soupSize
  if start < stop then decide (start ≤ a ∧ a < stop)
  else decide (a ≥ start ∨ a < stop)

/-- `Cell.owns_daughter`: like `ownsMother` for the daughter region. -/
def Cell.ownsDaughter (c : Cell) (addr : Int) (soupSize : Nat) : Bool :=
  match c.md with
  | none => false
  | some md =>
    let a := (addr.emod soupSize).toNat
    let start := md.pos % soupSize
    let stop := (md.pos + md.size) % soupSize
    if start < stop then decide (start ≤ a ∧ a < stop)
    else decide (a ≥ start ∨ a < stop)

/-- Simulation configuration (`config.py`).  Integer-valued fields keep
their source types; `float` fields become exact rationals.  `slice_pow`
is a float in the source with integral default `1.0`; the embedded
machine takes it as a natural exponent. -/
structure Config where
  soup_size : Nat
  slice_size : Nat
  siz_dep_slice : Nat
  slice_pow : Nat
  slice_style : Nat
  slic_fix_frac : Frac
  slic_ran_frac : Frac
  gen_per_bkg_mut : Nat
  gen_per_flaw : Nat
  gen_per_mov_mut : Nat
  gen_per_div_mut : Nat
  gen_per_cro_ins_sam_siz : Nat
  gen_per_ins_ins : Nat
  gen_per_del_ins : Nat
  gen_per_cro_ins : Nat
  gen_per_del_seg : Nat
  gen_per_ins_seg : Nat
  gen_per_cro_seg : Nat
  mut_bit_prop : Frac
  mal_mode : Nat
  mal_reap_tol : Nat
  mal_tol : Nat
  min_cell_size : Nat
  mov_prop_thr_div : Frac
  search_limit : Nat
  reap_rnd_prop : Frac
  lazy_tol : Nat
  drop_dead : Nat
  div_same_siz : Nat
  dist_freq : Frac
  dist_prop : Frac
  mem_mode_free : Nat
  mem_mode_mine : Nat
  mem_mode_prot : Nat
  disk_bank : Nat
  save_freq : Nat
  rate_mut : Frac
  rate_flaw : Frac
  rate_mov_mut : Frac
  deriving DecidableEq

/-- Observable events emitted on the bus (`events.py`). -/
inductive Event where
  | cellBorn (cellId parentId : Nat)
  | cellDied (cellId : Nat) (cause : String)
  | newGenotype (name : String)
  | mutationEv (addr : Nat) (kind : String)
  deriving DecidableEq

/-- One genotype record (`genebank.py`, class `Genotype`).  The source
shares one mutable `Genotype` object between the per-size-class hash
table and the by-name table; here the record lives in the by-name table
and the hash table stores the name. -/
structure Genotype where
  name : String
  genome : List Nat
  population : Nat
  origin_time : Nat
  max_pop : Nat
  parent : String
  deriving DecidableEq

/-- One size class (`genebank.py`, class `SizeClass`): genotypes of one
length keyed by genome hash, plus the label counter. -/
structure SizeClass where
  byHash : List (Nat × String)
  next_label : Nat
  deriving DecidableEq

/-- The genotype registry (`genebank.py`, class `GeneBank`). -/
structure GeneBank where
  size_classes : List (Nat × SizeClass)
  genotypes : List (String × Genotype)
  deriving DecidableEq

/-- The soup (`soup.py`): byte array, free list sorted by position, and
the owner index `(pos, size, cellId)` sorted by position. -/
structure Soup where
  size : Nat
  data : List Nat
  free_blocks : List (Nat × Nat)
  owners : List (Nat × Nat × Nat)
  deriving DecidableEq

/-- `Soup.__init__(size)`: zeroed bytes, one free block covering all. -/
def Soup.init (size : Nat) : Soup :=
  ⟨size, List.replicate size 0, [(0, size)], []⟩

/-- Scheduler state (`scheduler.py`): the queue of creature ids and the
current cursor. -/
structure SchedState where
  queue : List Nat
  idx : Nat
  deriving DecidableEq

/-- The whole simulation state (`simulation.py`, class `Simulation`),
with the creature arena `cells` mapping ids to `Cell` records (reaped
creatures stay in the arena with `alive = false`, as the Python objects
persist), and the RNG stream standing for the seeded global generator. -/
structure SimState where
  config : Config
  soup : Soup
  sched : SchedState
  reaperQueue : List Nat
  genebank : GeneBank
  cells : List (Nat × Cell)
  nextId : Nat
  events : List Event
  inst_executed : Nat
  last_repro_inst : Nat
  next_disturbance_inst : Nat
  last_save_inst : Nat
  rng : Rng
  deriving DecidableEq

/-- Fetch a creature from the arena (Python attribute access through an
object reference; ids handed out by the simulation are always present). -/
def SimState.cell (s : SimState) (cid : Nat) : Cell :=
  (s.cells.lookup cid).getD (Cell.init 0 0)

/-- Replace a creature in the arena (mutation of the Python object). -/
def SimState.setCell (s : SimState) (cid : Nat) (c : Cell) : SimState :=
  { s with cells := s.cells.map (fun p => if p.1 = cid then (cid, c) else p) }

end PyTierra

namespace PyTierra

/-- `Soup.read(addr)`: byte at `addr mod size`. -/
def Soup.read (s : Soup) (addr : Nat) : Nat :=
  s.data.getD (addr % s.size) 0

/-- `Soup.read` at a possibly negative address (Python `%` on a negative
int yields the non-negative residue). -/
def Soup.readI (s : Soup) (addr : Int) : Nat :=
  s.data.getD (addr.emod s.size).toNat 0

/-- `Soup.write(addr, value)`: store `value & 0xFF` at `addr mod size`. -/
def Soup.write (s : Soup) (addr : Int) (value : Int) : Soup :=
  { s with data := s.data.set (addr.emod s.size).toNat (value.emod 256).toNat }

/-- Overwrite the region starting at index `i` with `seg` (helper for
the two numpy slice assignments of `write_block`). -/
def spliceAt (data : List Nat) (i : Nat) (seg : List Nat) : List Nat :=
  data.take i ++ seg ++ data.drop (i + seg.length)

/-- `Soup.read_block(addr, size)`: contiguous read, split at the seam
when it wraps. -/
def Soup.readBlock (s : Soup) (addr0 size : Nat) : List Nat :=
  let addr := addr0 % s.size
  if addr + size ≤ s.size then (s.data.drop addr).take size
  else (s.data.drop addr) ++ s.data.take (size - (s.size - addr))

/-- `Soup.write_block(addr, data)`: contiguous write, split at the seam
when it wraps. -/
def Soup.writeBlock (s : Soup) (addr0 : Nat) (g : List Nat) : Soup :=
  let addr := addr0 % s.size
  if addr + g.length ≤ s.size then { s with data := spliceAt s.data addr g }
  else
    let split := s.size - addr
    { s with data := spliceAt (spliceAt s.data addr (g.take split)) 0 (g.drop split) }

/-- `Soup.owner_at(addr)`: the id owning `addr`, located by binary search
over the position-sorted, disjoint owner index; on such an index the
search returns the unique interval containing `addr`, which this scan
computes. -/
def Soup.ownerAt (s : Soup) (addr : Int) : Option Nat :=
  let a := (addr.emod s.size).toNat
  match s.owners.find? (fun o => decide (o.1 ≤ a ∧ a < o.1 + o.2.1)) with
  | some o => some o.2.2
  | none => none

/-- `Soup._check_access(addr, cell, config, access_bit)`: resolve the
owner, select the mask, deny iff the bit is set. -/
def Soup.checkAccess (s : Soup) (addr : Int) (cid : Nat) (cfg : Config) (accessBit : Nat) : Bool :=
  match s.ownerAt addr with
  | none => (cfg.mem_mode_free &&& accessBit) = 0
  | some owner =>
    if owner = cid then (cfg.mem_mode_mine &&& accessBit) = 0
    else (cfg.mem_mode_prot &&& accessBit) = 0

/-- `Soup.check_write`: fast path when all three masks are zero. -/
def Soup.checkWrite (s : Soup) (addr : Int) (cid : Nat) (cfg : Config) : Bool :=
  if cfg.mem_mode_free = 0 ∧ cfg.mem_mode_mine = 0 ∧ cfg.mem_mode_prot = 0 then true
  else s.checkAccess addr cid cfg 2

/-- `Soup.check_execute`: fast path when all three masks are zero. -/
def Soup.checkExecute (s : Soup) (addr : Int) (cid : Nat) (cfg : Config) : Bool :=
  if cfg.mem_mode_free = 0 ∧ cfg.mem_mode_mine = 0 ∧ cfg.mem_mode_prot = 0 then true
  else s.checkAccess addr cid cfg 1

/-- First-fit selector of `allocate` (mode 0): index of the earliest
free block with `sz ≥ size`. -/
def firstFitIdx (size : Nat) : List (Nat × Nat) → Option Nat
  | [] => none
  | b :: rest =>
    if size ≤ b.2 then some 0 else (firstFitIdx size rest).map (· + 1)

/-- Better-fit selector of `allocate` (mode 1): running fold over the
blocks keeping the smallest adequate size, earliest on ties, exactly as
the source loop tracks `best_idx` and `best_size`. -/
def bestFitAux (size : Nat) : List (Nat × Nat) → Nat → Option (Nat × Nat) → Option (Nat × Nat)
  | [], _, best => best
  | b :: rest, i, best =>
    let better : Bool := match best with
      | none => decide (size ≤ b.2)
      | some p => decide (size ≤ b.2 ∧ b.2 < p.2)
    if better then bestFitAux size rest (i + 1) (some (i, b.2))
    else bestFitAux size rest (i + 1) best

/-- Index selected by the better-fit mode. -/
def bestFitIdx (size : Nat) (blocks : List (Nat × Nat)) : Option Nat :=
  (bestFitAux size blocks 0 none).map (·.1)

/-- Indices of all blocks large enough (`adequate` list of mode 2). -/
def adequateIdxs (size : Nat) : List (Nat × Nat) → Nat → List Nat
  | [], _ => []
  | b :: rest, i =>
    if size ≤ b.2 then i :: adequateIdxs size rest (i + 1) else adequateIdxs size rest (i + 1)

/-- Wrap-aware distance used by the near modes:
`min(|pos - hint|, size - |pos - hint|)`. -/
def wrapDist (soupSize : Nat) (pos : Nat) (hint : Int) : Int :=
  min ((pos : Int) - hint).natAbs ((soupSize : Int) - ((pos : Int) - hint).natAbs)

/-- Near-mode selector (modes 3-6): adequate block minimizing wrap-aware
distance to the hint, tracked as the source loop tracks `best_idx` and
`best_dist`. -/
def nearFitAux (soupSize size : Nat) (hint : Int) :
    List (Nat × Nat) → Nat → Option (Nat × Int) → Option (Nat × Int)
  | [], _, best => best
  | b :: rest, i, best =>
    if size ≤ b.2 then
      let dist := wrapDist soupSize b.1 hint
      let better : Bool := match best with | none => true | some p => decide (dist < p.2)
      if better then nearFitAux soupSize size hint rest (i + 1) (some (i, dist))
      else nearFitAux soupSize size hint rest (i + 1) best
    else nearFitAux soupSize size hint rest (i + 1) best

/-- Index selected by the near modes, with the tolerance cut-off. -/
def nearFitIdx (soupSize size : Nat) (hint tolerance : Int) (blocks : List (Nat × Nat)) : Option Nat :=
  match nearFitAux soupSize size hint blocks 0 none with
  | none => none
  | some (i, dist) => if 0 ≤ tolerance ∧ tolerance < dist then none else some i

/-- The block index chosen by `Soup.allocate` for a given mode.  Modes
3-6 with a negative hint, and unknown modes, recurse into mode 1 in the
source (`return self.allocate(size, mode=1)`), which reduces to the
better-fit selector. -/
def chooseIdx (soupSize size mode : Nat) (hint tolerance : Int) (blocks : List (Nat × Nat))
    (rng : Rng) : Option Nat × Rng :=
  if mode = 0 then (firstFitIdx size blocks, rng)
  else if mode = 1 then (bestFitIdx size blocks, rng)
  else if mode = 2 then
    let adequate := adequateIdxs size blocks 0
    if adequate = [] then (none, rng)
    else
      let (v, rng') := rng.nextInt
      (some (adequate.getD (v % adequate.length) 0), rng')
  else if (mode = 3 ∨ mode = 4 ∨ mode = 5 ∨ mode = 6) ∧ 0 ≤ hint then
    (nearFitIdx soupSize size hint tolerance blocks, rng)
  else (bestFitIdx size blocks, rng)

/-- `Soup.allocate(size, mode, hint_addr, tolerance)`: select a free
block, then either remove it (exact fit) or shave `size` bytes off its
front.  Returns the placed region, the updated soup and the RNG. -/
def Soup.allocate (s : Soup) (size mode : Nat) (hint tolerance : Int) (rng : Rng) :
    Option (Nat × Nat) × Soup × Rng :=
  if s.free_blocks = [] then (none, s, rng)
  else
    let ch := chooseIdx s.size size mode hint tolerance s.free_blocks rng
    let rng' := ch.2
    match ch.1 with
    | none => (none, s, rng')
    | some idx =>
      let b := s.free_blocks.getD idx (0, 0)
      if b.2 = size then (some (b.1, size), { s with free_blocks := s.free_blocks.eraseIdx idx }, rng')
      else (some (b.1, size),
            { s with free_blocks := s.free_blocks.set idx (b.1 + size, b.2 - size) }, rng')

/-- Free-list surgery of `Soup.allocate_at`: find the block containing
`[addr, addr+size)`, split off the left and right remainders. -/
def allocateAtBlocks (addr size : Nat) : List (Nat × Nat) → Option (List (Nat × Nat))
  | [] => none
  | b :: rest =>
    if b.1 ≤ addr ∧ addr + size ≤ b.1 + b.2 then
      some ((if b.1 < addr then [(b.1, addr - b.1)] else []) ++
            (if 0 < (b.1 + b.2) - (addr + size) then [(addr + size, (b.1 + b.2) - (addr + size))] else []) ++
            rest)
    else (allocateAtBlocks addr size rest).map (b :: ·)

/-- `Soup.allocate_at(addr, size)`: boot-time allocation of a specific
region; returns success. -/
def Soup.allocateAt (s : Soup) (addr0 size : Nat) : Bool × Soup :=
  let addr := addr0 % s.size
  match allocateAtBlocks addr size s.free_blocks with
  | some blocks => (true, { s with free_blocks := blocks })
  | none => (false, s)

/-- Python `bisect.bisect_left(positions, addr)`: for a sorted list, the
first index whose value is `≥ addr`, i.e. the count of entries `< addr`.
The free list and owner index are kept position-sorted by every
operation, so this is the value the binary search returns. -/
def bisectLeft (positions : List Nat) (addr : Nat) : Nat :=
  (positions.takeWhile (fun p => decide (p < addr))).length

/-- `Soup.deallocate(addr, size)`: insert the block at its sorted
position, then merge with the successor and with the predecessor when
contiguous, with the same index arithmetic as the source. -/
def Soup.deallocate (s : Soup) (addr0 size : Nat) : Soup :=
  let addr := addr0 % s.size
  let i := bisectLeft (s.free_blocks.map (·.1)) addr
  let l1 := s.free_blocks.insertIdx i (addr, size)
  let l2 :=
    if i + 1 < l1.length then
      let c := l1.getD i (0, 0)
      let n := l1.getD (i + 1) (0, 0)
      if c.1 + c.2 = n.1 then (l1.set i (c.1, c.2 + n.2)).eraseIdx (i + 1) else l1
    else l1
  let l3 :=
    if 0 < i then
      let p := l2.getD (i - 1) (0, 0)
      let c := l2.getD i (0, 0)
      if p.1 + p.2 = c.1 then (l2.set (i - 1) (p.1, p.2 + c.2)).eraseIdx i else l2
    else l2
  { s with free_blocks := l3 }

/-- `Soup.randomize_block(addr, size)`: overwrite each byte of the block
with a uniform `randint(0, 31)`. -/
def Soup.randomizeBlock (s : Soup) (addr : Nat) : Nat → Rng → Soup × Rng
  | 0, rng => (s, rng)
  | n + 1, rng =>
    let (v, rng') := rng.randint 0 31
    Soup.randomizeBlock { s with data := s.data.set (addr % s.size) v } (addr + 1) n rng'

/-- `Soup.is_free(addr)`: does some free block contain `addr mod size`. -/
def Soup.isFree (s : Soup) (addr : Nat) : Bool :=
  let a := addr % s.size
  s.free_blocks.any (fun b => decide (b.1 ≤ a ∧ a < b.1 + b.2))

/-- `Soup.total_free()`: total bytes on the free list. -/
def Soup.totalFree (s : Soup) : Nat :=
  (s.free_blocks.map (·.2)).sum

/-- `Soup.add_owner(cell)`: insert `(pos, size, id)` at the sorted
position of the owner index. -/
def Soup.addOwner (s : Soup) (cid : Nat) (c : Cell) : Soup :=
  let i := bisectLeft (s.owners.map (·.1)) c.mm.pos
  { s with owners := s.owners.insertIdx i (c.mm.pos, c.mm.size, cid) }

/-- `Soup.remove_owner(cell)`: drop the first owner entry of the id. -/
def Soup.removeOwner (s : Soup) (cid : Nat) : Soup :=
  match s.owners.findIdx? (fun o => o.2.2 = cid) with
  | some i => { s with owners := s.owners.eraseIdx i }
  | none => s

end PyTierra

namespace PyTierra

/-- The only death cause string the source ever emits
(`reaper.py` line 87). -/
def causeReaper : String := "reaper"

/-- `Scheduler.add(cell)`: append to the queue. -/
def SchedState.add (st : SchedState) (cid : Nat) : SchedState :=
  { st with queue := st.queue ++ [cid] }

/-- `Scheduler.remove(cell)`: delete by identity and adjust the cursor:
removal strictly before the cursor shifts it back; removal at the cursor
resets it to 0 when it falls off the end of the shortened queue. -/
def SchedState.remove (st : SchedState) (cid : Nat) : SchedState :=
  match st.queue.findIdx? (fun c => c = cid) with
  | none => st
  | some i =>
    let q := st.queue.eraseIdx i
    let cur :=
      if i < st.idx then st.idx - 1
      else if i = st.idx ∧ q.length ≤ st.idx then 0
      else st.idx
    { st with queue := q, idx := cur }

/-- `Scheduler.current()`: clamp the cursor into range (a genuine state
update in the source) and return the creature there, `none` on an empty
queue. -/
def SchedState.currentSt (st : SchedState) : Option Nat × SchedState :=
  if st.queue = [] then (none, st)
  else
    let i := if st.queue.length ≤ st.idx then 0 else st.idx
    (some (st.queue.getD i 0), { st with idx := i })

/-- `Scheduler.advance()`: move the cursor forward modulo queue length. -/
def SchedState.advance (st : SchedState) : SchedState :=
  if st.queue = [] then st
  else { st with idx := (st.idx + 1) % st.queue.length }

/-- `SizeClass._int_to_label(n)`: base-26 three-letter label. -/
def intToLabel (n : Nat) : String :=
  let c3 := Char.ofNat (97 + n % 26)
  let c2 := Char.ofNat (97 + (n / 26) % 26)
  let c1 := Char.ofNat (97 + (n / 26 / 26) % 26)
  String.mk [c1, c2, c3]

/-- Python `f"{size:04d}"`: decimal, zero-padded to width 4. -/
def zeroPad4 (n : Nat) : String :=
  let s := toString n
  String.mk (List.replicate (4 - s.length) '0') ++ s

/-- `SizeClass.next_name(size)`: mint the name and bump the counter. -/
def SizeClass.nextName (sc : SizeClass) (size : Nat) : String × SizeClass :=
  (zeroPad4 size ++ intToLabel sc.next_label, { sc with next_label := sc.next_label + 1 })

/-- `GeneBank._genome_hash(data)`: weighted byte sum mod `2^32`, XORed
with the length. -/
def genomeHash (g : List Nat) : Nat :=
  (g.enum.foldl (fun h p => (h + p.2 * (p.1 + 1)) % 4294967296) 0) ^^^ g.length

/-- Store a key in an association list, appending new keys at the end
(Python dict insertion order). -/
def setAssoc {α β : Type} [DecidableEq α] (l : List (α × β)) (k : α) (v : β) : List (α × β) :=
  if l.any (fun p => p.1 = k) then l.map (fun p => if p.1 = k then (k, v) else p)
  else l ++ [(k, v)]

/-- Association-list lookup by decidable equality. -/
def getAssoc {α β : Type} [DecidableEq α] (l : List (α × β)) (k : α) : Option β :=
  (l.find? (fun p => p.1 = k)).map (·.2)

/-- `GeneBank.register(cell, soup)`: hash the mother bytes, find the size
class, reuse the genotype stored under that hash or mint a fresh name,
bump the population, and tag the creature.  Returns the genotype, the
updated bank and the updated creature. -/
def GeneBank.register (gb : GeneBank) (soup : Soup) (c : Cell) : Genotype × GeneBank × Cell :=
  let genome := soup.readBlock c.mm.pos c.mm.size
  let size := c.mm.size
  let ghash := genomeHash genome
  let sc := (getAssoc gb.size_classes size).getD ⟨[], 0⟩
  let (gt, sc, genotypes) :=
    match getAssoc sc.byHash ghash with
    | some name => ((getAssoc gb.genotypes name).getD ⟨name, genome, 0, 0, 0, ""⟩, sc, gb.genotypes)
    | none =>
      let (name, sc') := sc.nextName size
      let gt : Genotype := ⟨name, genome, 0, 0, 0, c.d.parent_genotype⟩
      (gt, { sc' with byHash := setAssoc sc'.byHash ghash name }, setAssoc gb.genotypes name gt)
  let gt := { gt with population := gt.population + 1 }
  let gt := { gt with max_pop := max gt.max_pop gt.population }
  let gb := { gb with size_classes := setAssoc gb.size_classes size sc,
                      genotypes := setAssoc genotypes gt.name gt }
  (gt, gb, { c with d := { c.d with genotype := gt.name } })

/-- `GeneBank.unregister(cell)`: decrement the population of the
creature's genotype, clamped at zero. -/
def GeneBank.unregister (gb : GeneBank) (c : Cell) : GeneBank :=
  match getAssoc gb.genotypes c.d.genotype with
  | none => gb
  | some gt =>
    { gb with genotypes := setAssoc gb.genotypes c.d.genotype { gt with population := gt.population - 1 } }

/-- Average mother size of the scheduled population, defaulting to 80
when the queue is empty (`instructions._avg_cell_size`, and the inline
computations in `reaper._reap_near_address`, `simulation._do_disturbance`
and `simulation._periodic_bookkeeping`). -/
def SimState.avgCellSize (s : SimState) : Nat :=
  if s.sched.queue = [] then 80
  else ((s.sched.queue.map (fun cid => (s.cell cid).mm.size)).sum) / s.sched.queue.length

/-- Append an event to the bus trace (`EventBus.emit` with the bus
enabled, subscribers observing in order). -/
def SimState.emit (s : SimState) (e : Event) : SimState :=
  { s with events := s.events ++ [e] }

/-- `Reaper._reap_cell(cell, sim)`: clear the alive flag, emit
`CELL_DIED` (always with cause `reaper`), deallocate and randomize the
mother region, drop ownership, deallocate any daughter, unregister from
the genebank, and leave both queues. -/
def SimState.reapCell (s : SimState) (cid : Nat) : SimState :=
  let c := s.cell cid
  let s := s.setCell cid { c with alive := false }
  let s := s.emit (Event.cellDied cid causeReaper)
  let s := { s with soup := s.soup.deallocate c.mm.pos c.mm.size }
  let rr := s.soup.randomizeBlock c.mm.pos c.mm.size s.rng
  let s := { s with soup := rr.1.removeOwner cid, rng := rr.2 }
  let s :=
    match c.md with
    | some md =>
      let s := { s with soup := s.soup.deallocate md.pos md.size }
      s.setCell cid { s.cell cid with md := none }
    | none => s
  let s := { s with genebank := s.genebank.unregister (s.cell cid) }
  let s := { s with reaperQueue := s.reaperQueue.erase cid }
  { s with sched := s.sched.remove cid }

/-- Search loop of `Reaper._reap_near_address`: walk the queue from the
oldest end, skip the current creature, reap the first one within
`maxDist` wrap-aware distance of `addr`. -/
def reapNearLoop (s : SimState) (addr : Int) (cur : Option Nat) (maxDist : Nat) :
    List Nat → SimState × Option Nat
  | [] => (s, none)
  | cid :: rest =>
    if some cid = cur then reapNearLoop s addr cur maxDist rest
    else
      let dist := wrapDist s.config.soup_size (s.cell cid).mm.pos addr
      if dist ≤ (maxDist : Int) then (s.reapCell cid, some cid)
      else reapNearLoop s addr cur maxDist rest

/-- `Reaper._reap_near_address(sim, addr, current_cell)`. -/
def SimState.reapNearAddress (s : SimState) (addr : Int) (cur : Option Nat) :
    SimState × Option Nat :=
  let avgSize := s.avgCellSize
  let maxDist := s.config.mal_tol * avgSize
  reapNearLoop s addr cur maxDist s.reaperQueue

/-- Global branch of `Reaper.reap`: pick a random index within the top
`reap_rnd_prop` window, step past the currently executing creature once,
give up if the window is exhausted, otherwise reap. -/
def SimState.reapGlobal (s : SimState) (cur : Option Nat) : SimState × Option Nat :=
  let len := s.reaperQueue.length
  let reapRange := max 1 ((Frac.mul (Frac.ofNat len) s.config.reap_rnd_prop).trunc).toNat
  let drawn :=
    if reapRange < 2 then (0, s)
    else
      ((s.rng.randint 0 (reapRange - 1)).1, { s with rng := (s.rng.randint 0 (reapRange - 1)).2 })
  let idx := drawn.1
  let s := drawn.2
  let victim := s.reaperQueue.getD idx 0
  if some victim = cur ∧ 1 < len then
    let idx2 := (idx + 1) % min reapRange len
    let victim2 := s.reaperQueue.getD idx2 0
    if some victim2 = cur then (s, none)
    else (s.reapCell victim2, some victim2)
  else (s.reapCell victim, some victim)

/-- `Reaper.reap(sim, suggested_addr)`: near-address mode first when
`MalReapTol` is set and a hint is given, then the global random-window
mode. -/
def SimState.reap (s : SimState) (suggested : Int) : SimState × Option Nat :=
  if s.reaperQueue = [] then (s, none)
  else
    let cur := s.sched.currentSt.1
    let s := { s with sched := s.sched.currentSt.2 }
    if s.config.mal_reap_tol ≠ 0 ∧ 0 ≤ suggested then
      let near := s.reapNearAddress suggested cur
      match near.2 with
      | some v => (near.1, some v)
      | none => near.1.reapGlobal cur
    else s.reapGlobal cur

/-- `Reaper.check_lazy(cell, sim)`: reap a creature that has divided at
least once and has executed more than `lazy_tol * mother.size`
instructions since its last division.  Returns whether it was reaped. -/
def SimState.checkLazy (s : SimState) (cid : Nat) : SimState × Bool :=
  if s.config.lazy_tol = 0 then (s, false)
  else
    let c := s.cell cid
    if 0 < c.d.fecundity then
      let threshold := c.mm.size * s.config.lazy_tol
      if threshold < c.d.rep_inst then (s.reapCell cid, true) else (s, false)
    else (s, false)

/-- Kill loop of `Reaper.disturbance`: up to `numToKill` draws, stopping
when at most one creature remains; a draw that hits the currently
executing creature is skipped without a redraw. -/
def disturbLoop (cur : Option Nat) : Nat → SimState → Nat → SimState × Nat
  | 0, s, killed => (s, killed)
  | fuel + 1, s, killed =>
    if s.reaperQueue.length ≤ 1 then (s, killed)
    else
      let v := (s.rng.randint 0 (s.reaperQueue.length - 1)).1
      let s := { s with rng := (s.rng.randint 0 (s.reaperQueue.length - 1)).2 }
      let victim := s.reaperQueue.getD v 0
      if some victim = cur then disturbLoop cur fuel s killed
      else disturbLoop cur fuel (s.reapCell victim) (killed + 1)

/-- `Reaper.disturbance(sim)`: kill up to
`max(1, int(len * dist_prop))` random creatures, skipping the currently
executing one.  Returns the number killed. -/
def SimState.disturbance (s : SimState) : SimState × Nat :=
  if s.reaperQueue = [] then (s, 0)
  else
    let numToKill := max 1 ((Frac.mul (Frac.ofNat s.reaperQueue.length) s.config.dist_prop).trunc).toNat
    let cur := s.sched.currentSt.1
    let s := { s with sched := s.sched.currentSt.2 }
    disturbLoop cur numToKill s 0

end PyTierra

namespace PyTierra

/-- Event-kind string for background mutations. -/
def kindBackground : String := "background"

/-- `Mutations.update_rates(avg_size, num_cells)`: recompute the three
probabilistic rates `1/(gen_per_X * avg_size)` (zero when the configured
denominator is zero). -/
def Config.updateRates (cfg : Config) (avgSize0 : Nat) : Config :=
  let avgSize := if avgSize0 = 0 then 80 else avgSize0
  let cfg := { cfg with rate_mut :=
    if 0 < cfg.gen_per_bkg_mut then ⟨1, cfg.gen_per_bkg_mut * avgSize⟩ else Frac.ofNat 0 }
  let cfg := { cfg with rate_flaw :=
    if 0 < cfg.gen_per_flaw then ⟨1, cfg.gen_per_flaw * avgSize⟩ else Frac.ofNat 0 }
  { cfg with rate_mov_mut :=
    if 0 < cfg.gen_per_mov_mut then ⟨1, cfg.gen_per_mov_mut * avgSize⟩ else Frac.ofNat 0 }

/-- `Mutations._mutate_value(value)`: with probability `mut_bit_prop`
flip one of the low five bits, otherwise replace by a random opcode. -/
def mutateValue (cfg : Config) (value : Nat) (rng : Rng) : Nat × Rng :=
  let (f, rng) := rng.nextFloat
  if f.ltB cfg.mut_bit_prop then
    let (b, rng) := rng.randint 0 4
    (value ^^^ (1 <<< b), rng)
  else rng.randint 0 31

/-- `Mutations.background_mutation(sim)`: mutate one random soup byte
and emit `MUTATION(kind=background)`. -/
def SimState.backgroundMutation (s : SimState) : SimState :=
  let (addr, rng) := s.rng.randint 0 (s.config.soup_size - 1)
  let value := s.soup.read addr
  let (value, rng) := mutateValue s.config value rng
  let s := { s with soup := s.soup.write addr value, rng := rng }
  s.emit (Event.mutationEv addr kindBackground)

/-- Is a byte one of the two template nops. -/
def isNopByte (b : Nat) : Bool :=
  b = 0 ∨ b = 1

/-- Run splitter behind `Mutations._find_segments`: walk the indexed
bytes of the region, skip nops, and record each maximal non-nop run as
`(start_addr, length)`.  Fuel is the region size; every step consumes at
least one byte. -/
def segSplit (pos S : Nat) : Nat → List (Nat × Nat) → List (Nat × Nat)
  | 0, _ => []
  | _, [] => []
  | fuel + 1, (i, b) :: rest =>
    if isNopByte b then segSplit pos S fuel rest
    else
      let run := rest.takeWhile (fun p => !isNopByte p.2)
      ((pos + i) % S, 1 + run.length) :: segSplit pos S fuel (rest.dropWhile (fun p => !isNopByte p.2))

/-- `Mutations._find_segments(pos, size, sim)`. -/
def SimState.findSegments (s : SimState) (pos size : Nat) : List (Nat × Nat) :=
  segSplit pos s.config.soup_size size
    ((List.range size).map (fun i => (i, s.soup.read ((pos + i) % s.config.soup_size))))

/-- `Mutations._find_same_size_mate(cell, sim)`: a random scheduled
creature other than `cid` whose mother size equals the daughter size. -/
def SimState.findSameSizeMate (s : SimState) (cid : Nat) (mdSize : Nat) : Option Nat × SimState :=
  let candidates := s.sched.queue.filter (fun c => c ≠ cid ∧ (s.cell c).mm.size = mdSize)
  if candidates = [] then (none, s)
  else
    let (v, rng) := s.rng.nextInt
    (some (candidates.getD (v % candidates.length) 0), { s with rng := rng })

/-- Shared preamble of every division-time genetic operator: skip when
the configured generations-per-event is zero, otherwise draw and demand
`random() < 1/gen_per`. -/
def opTriggers (genPer : Nat) (s : SimState) : Bool × SimState :=
  if genPer = 0 then (false, s)
  else
    let (f, rng) := s.rng.nextFloat
    (f.ltB ⟨1, genPer⟩, { s with rng := rng })

/-- `Mutations._mutation_ops(cell, sim)`: one random daughter byte is
value-mutated. -/
def SimState.mutationOps (s : SimState) (cid : Nat) : SimState :=
  let (go, s) := opTriggers s.config.gen_per_div_mut s
  if !go then s else
  match (s.cell cid).md with
  | none => s
  | some md =>
    let (offset, rng) := s.rng.randint 0 (md.size - 1)
    let addr := (md.pos + offset) % s.config.soup_size
    let value := s.soup.read addr
    let (value, rng) := mutateValue s.config value rng
    let s := { s with soup := s.soup.write addr value, rng := rng }
    s.setCell cid { s.cell cid with d := { (s.cell cid).d with mutations := (s.cell cid).d.mutations + 1 } }

/-- Copy `count` bytes from addresses `srcBase + i` to `dstBase + i`
(the per-byte copy loops of the crossover operators). -/
def copyBytes (s : Soup) (S dstBase srcBase : Nat) : Nat → Soup
  | 0 => s
  | k + 1 =>
    let s' := s.write ((dstBase : Int)) (s.read (srcBase % S))
    copyBytes s' S (dstBase + 1) (srcBase + 1) k

/-- `Mutations._crossover_inst_same_size(cell, sim)`: overwrite the
daughter's tail from a same-size mate's tail past a random split point. -/
def SimState.crossoverInstSameSize (s : SimState) (cid : Nat) : SimState :=
  let (go, s) := opTriggers s.config.gen_per_cro_ins_sam_siz s
  if !go then s else
  match (s.cell cid).md with
  | none => s
  | some md =>
    let (mate?, s) := s.findSameSizeMate cid md.size
    match mate? with
    | none => s
    | some mate =>
      let (crossPoint, rng) := s.rng.randint 1 (md.size - 1)
      let s := { s with rng := rng }
      let matePos := (s.cell mate).mm.pos
      let count := md.size - crossPoint
      let soup := copyBytes s.soup s.config.soup_size
        ((md.pos + crossPoint) % s.config.soup_size) ((matePos + crossPoint) % s.config.soup_size) count
      let s := { s with soup := soup }
      s.setCell cid { s.cell cid with d := { (s.cell cid).d with mutations := (s.cell cid).d.mutations + 1 } }

/-- `Mutations._crossover_inst(cell, sim)`: size-changing instruction
crossover with any other creature, truncated to the daughter bounds. -/
def SimState.crossoverInst (s : SimState) (cid : Nat) : SimState :=
  let (go, s) := opTriggers s.config.gen_per_cro_ins s
  if !go then s else
  match (s.cell cid).md with
  | none => s
  | some md =>
    if s.sched.queue.length < 2 then s else
    let candidates := s.sched.queue.filter (fun c => c ≠ cid)
    if candidates = [] then s else
    let (v, rng) := s.rng.nextInt
    let mate := candidates.getD (v % candidates.length) 0
    let s := { s with rng := rng }
    let mateSize := (s.cell mate).mm.size
    let (crossD, rng) := s.rng.randint 1 (md.size - 1)
    let (crossM, rng) := rng.randint 1 (mateSize - 1)
    let s := { s with rng := rng }
    let tailLen := mateSize - crossM
    let newSize := crossD + tailLen
    if newSize < s.config.min_cell_size ∨ md.size < newSize then s else
    let writeLen := min tailLen (md.size - crossD)
    let matePos := (s.cell mate).mm.pos
    let soup := copyBytes s.soup s.config.soup_size
      ((md.pos + crossD) % s.config.soup_size) ((matePos + crossM) % s.config.soup_size) writeLen
    let s := { s with soup := soup }
    s.setCell cid { s.cell cid with d := { (s.cell cid).d with mutations := (s.cell cid).d.mutations + 1 } }

end PyTierra

namespace PyTierra

/-- Descending shift loop of `_insertion_inst` and `_insertion_seg`:
`count` steps moving byte `dstTop - k - shift` to `dstTop - k`. -/
def shiftRight (s : Soup) (S base shift : Nat) : Nat → (top : Nat) → Soup
  | 0, _ => s
  | k + 1, top =>
    let s' := s.write ((base + top : Nat) : Int) (s.read ((base + top - shift) % S))
    shiftRight s' S base shift k (top - 1)

/-- `Mutations._insertion_inst(cell, sim)`: shift the daughter tail one
byte right at a random position, write a random opcode into the gap. -/
def SimState.insertionInst (s : SimState) (cid : Nat) : SimState :=
  let (go, s) := opTriggers s.config.gen_per_ins_ins s
  if !go then s else
  match (s.cell cid).md with
  | none => s
  | some md =>
    if md.size < 2 then s else
    let (pos, rng) := s.rng.randint 0 (md.size - 1)
    let s := { s with rng := rng }
    let addr := (md.pos + pos) % s.config.soup_size
    let soup := shiftRight s.soup s.config.soup_size md.pos 1 (md.size - 1 - pos) (md.size - 1)
    let (v, rng) := s.rng.randint 0 31
    let s := { s with soup := soup.write (addr : Int) v, rng := rng }
    s.setCell cid { s.cell cid with d := { (s.cell cid).d with mutations := (s.cell cid).d.mutations + 1 } }

/-- Ascending shift loop of `_deletion_inst` and `_deletion_seg`:
`count` steps moving byte `base + from + k + gap` to `base + from + k`. -/
def shiftLeft (s : Soup) (S base gap : Nat) : Nat → (i : Nat) → Soup
  | 0, _ => s
  | k + 1, i =>
    let s' := s.write ((base + i : Nat) : Int) (s.read ((base + i + gap) % S))
    shiftLeft s' S base gap k (i + 1)

/-- Write `count` constant bytes starting at `base + i` (tail fill of the
deletion operators). -/
def fillBytes (s : Soup) (value : Nat) : Nat → (i : Nat) → Soup
  | 0, _ => s
  | k + 1, i =>
    fillBytes (s.write (i : Int) value) value k (i + 1)

/-- `Mutations._deletion_inst(cell, sim)`: shift the daughter left over a
random position and zero the freed trailing byte. -/
def SimState.deletionInst (s : SimState) (cid : Nat) : SimState :=
  let (go, s) := opTriggers s.config.gen_per_del_ins s
  if !go then s else
  match (s.cell cid).md with
  | none => s
  | some md =>
    if md.size < s.config.min_cell_size + 1 then s else
    let (pos, rng) := s.rng.randint 0 (md.size - 1)
    let s := { s with rng := rng }
    let soup := shiftLeft s.soup s.config.soup_size md.pos 1 (md.size - 1 - pos) pos
    let s := { s with soup := soup.write (((md.pos + md.size - 1) % s.config.soup_size : Nat) : Int) 0 }
    s.setCell cid { s.cell cid with d := { (s.cell cid).d with mutations := (s.cell cid).d.mutations + 1 } }

/-- `Mutations._crossover_seg(cell, sim)`: copy a random NOP-bounded
segment of a random mate over a random daughter segment, truncated. -/
def SimState.crossoverSeg (s : SimState) (cid : Nat) : SimState :=
  let (go, s) := opTriggers s.config.gen_per_cro_seg s
  if !go then s else
  match (s.cell cid).md with
  | none => s
  | some md =>
    let candidates := s.sched.queue.filter (fun c => c ≠ cid)
    if candidates = [] then s else
    let (v, rng) := s.rng.nextInt
    let mate := candidates.getD (v % candidates.length) 0
    let s := { s with rng := rng }
    let dSegs := s.findSegments md.pos md.size
    let mSegs := s.findSegments (s.cell mate).mm.pos (s.cell mate).mm.size
    if dSegs = [] ∨ mSegs = [] then s else
    let (v1, rng) := s.rng.nextInt
    let dSeg := dSegs.getD (v1 % dSegs.length) (0, 0)
    let (v2, rng) := rng.nextInt
    let mSeg := mSegs.getD (v2 % mSegs.length) (0, 0)
    let s := { s with rng := rng }
    let copyLen := min dSeg.2 mSeg.2
    let soup := copyBytes s.soup s.config.soup_size (dSeg.1 % s.config.soup_size) (mSeg.1 % s.config.soup_size) copyLen
    let s := { s with soup := soup }
    s.setCell cid { s.cell cid with d := { (s.cell cid).d with mutations := (s.cell cid).d.mutations + 1 } }

/-- `Mutations._insertion_seg(cell, sim)`: duplicate a random daughter
segment into the daughter at a random position, shifting the tail. -/
def SimState.insertionSeg (s : SimState) (cid : Nat) : SimState :=
  let (go, s) := opTriggers s.config.gen_per_ins_seg s
  if !go then s else
  match (s.cell cid).md with
  | none => s
  | some md =>
    let segs := s.findSegments md.pos md.size
    if segs = [] then s else
    let (v, rng) := s.rng.nextInt
    let seg := segs.getD (v % segs.length) (0, 0)
    let s := { s with rng := rng }
    let segLen := seg.2
    let (insertAt, rng) := s.rng.randint 0 (md.size - 1)
    let s := { s with rng := rng }
    let shiftLen := min segLen (md.size - insertAt - 1)
    if shiftLen = 0 then s else
    let soup := shiftRight s.soup s.config.soup_size md.pos shiftLen
      (md.size - 1 - (insertAt + shiftLen - 1)) (md.size - 1)
    let soup := copyBytes soup s.config.soup_size
      ((md.pos + insertAt) % s.config.soup_size) (seg.1 % s.config.soup_size) shiftLen
    let s := { s with soup := soup }
    s.setCell cid { s.cell cid with d := { (s.cell cid).d with mutations := (s.cell cid).d.mutations + 1 } }

/-- `Mutations._deletion_seg(cell, sim)`: remove a random daughter
segment by shifting left, filling the freed tail with `nop0`; guarded so
the daughter stays at least `min_cell_size`. -/
def SimState.deletionSeg (s : SimState) (cid : Nat) : SimState :=
  let (go, s) := opTriggers s.config.gen_per_del_seg s
  if !go then s else
  match (s.cell cid).md with
  | none => s
  | some md =>
    let segs := s.findSegments md.pos md.size
    if segs = [] then s else
    let (v, rng) := s.rng.nextInt
    let seg := segs.getD (v % segs.length) (0, 0)
    let s := { s with rng := rng }
    let segStartOffset := (((seg.1 : Int) - (md.pos : Int)).emod s.config.soup_size).toNat
    let segLen := seg.2
    let remaining : Int := (md.size : Int) - segStartOffset - segLen
    if remaining ≤ 0 ∨ md.size - segLen < s.config.min_cell_size then s else
    let soup := shiftLeft s.soup s.config.soup_size md.pos segLen remaining.toNat segStartOffset
    let soup := fillBytes soup 0 segLen ((md.pos + md.size - segLen) % s.config.soup_size)
    let s := { s with soup := soup }
    s.setCell cid { s.cell cid with d := { (s.cell cid).d with mutations := (s.cell cid).d.mutations + 1 } }

/-- `Mutations.genetic_ops(cell, sim)`: the eight division-time operators
in the fixed source order. -/
def SimState.geneticOps (s : SimState) (cid : Nat) : SimState :=
  match (s.cell cid).md with
  | none => s
  | some _ =>
    let s := s.mutationOps cid
    let s := s.crossoverInstSameSize cid
    let s := s.crossoverInst cid
    let s := s.insertionInst cid
    let s := s.deletionInst cid
    let s := s.crossoverSeg cid
    let s := s.insertionSeg cid
    s.deletionSeg cid

end PyTierra

namespace PyTierra

/-- Update a creature's CPU in place. -/
def SimState.withCpu (s : SimState) (cid : Nat) (f : CPU → CPU) : SimState :=
  s.setCell cid { s.cell cid with cpu := f (s.cell cid).cpu }

/-- Update a creature's demographics in place. -/
def SimState.withD (s : SimState) (cid : Nat) (f : Demographics → Demographics) : SimState :=
  s.setCell cid { s.cell cid with d := f (s.cell cid).d }

/-- Set or clear a creature's error flag. -/
def SimState.setFlagE (s : SimState) (cid : Nat) (b : Bool) : SimState :=
  s.withCpu cid (fun cpu => { cpu with flag_e := b })

/-- Python bitwise XOR on arbitrary (two's-complement) integers. -/
def intXor (a b : Int) : Int :=
  if 0 ≤ a then
    if 0 ≤ b then ((a.toNat ^^^ b.toNat : Nat) : Int)
    else -((a.toNat ^^^ (-b - 1).toNat : Nat) : Int) - 1
  else
    if 0 ≤ b then -(((-a - 1).toNat ^^^ b.toNat : Nat) : Int) - 1
    else (((-a - 1).toNat ^^^ (-b - 1).toNat : Nat) : Int)

/-- `instructions._flaw(sim)`: 0 when the flaw rate is off; otherwise,
with probability `rate_flaw`, a uniform choice of `-1` or `+1`. -/
def SimState.flaw (s : SimState) : Int × SimState :=
  if s.config.rate_flaw.leB (Frac.ofNat 0) then (0, s)
  else
    let (f, rng) := s.rng.nextFloat
    if f.ltB s.config.rate_flaw then
      let (v, rng') := rng.nextInt
      (if v % 2 = 0 then -1 else 1, { s with rng := rng' })
    else (0, { s with rng := rng })

/-- Template reader of `_find_template`: collect the run of consecutive
nops starting at `pos`, stopping at the first other byte; the fuel is the
soup size, realizing the source's safety break at `soup_size` nops. -/
def readTemplateAux (readF : Nat → Nat) (S : Nat) : Nat → Nat → List Nat
  | 0, _ => []
  | fuel + 1, pos =>
    let b := readF pos
    if isNopByte b then b :: readTemplateAux readF S fuel ((pos + 1) % S)
    else []

/-- `_match_at(start)`: do the `L` complement bytes occur at `start`. -/
def matchesAt (readF : Nat → Nat) : Nat → List Nat → Bool
  | _, [] => true
  | start, c :: rest => readF start = c && matchesAt readF (start + 1) rest

/-- Addresses probed by the forward search: `search_start + dist` for
`dist = 1 .. maxDist`, with `search_start = (ip + 1 + L) mod S`. -/
def forwardProbes (S ip L maxDist : Nat) : List Nat :=
  (List.range maxDist).map (fun d => ((ip + 1 + L) % S + (d + 1)) % S)

/-- Addresses probed by the backward search: `ip - dist` for
`dist = 1 .. maxDist`, reduced by Python's non-negative `mod`. -/
def backwardProbes (S ip maxDist : Nat) : List Nat :=
  (List.range maxDist).map (fun d => (((ip : Int) - ((d : Int) + 1)).emod S).toNat)

/-- Addresses probed by the outward search: forward then backward at
each distance. -/
def outwardProbes (S ip L maxDist : Nat) : List Nat :=
  (List.range maxDist).flatMap (fun d =>
    [((ip + 1 + L) % S + (d + 1)) % S, (((ip : Int) - ((d : Int) + 1)).emod S).toNat])

/-- Search direction of `_find_template`. -/
inductive Dir where
  | f
  | b
  | o
  deriving DecidableEq

/-- The search limit of `_find_template`:
`int(search_limit * avg_cell_size)` when the average size is positive,
the whole soup size otherwise. -/
def SimState.searchMax (s : SimState) : Nat :=
  if 0 < s.avgCellSize then s.config.search_limit * s.avgCellSize else s.config.soup_size

/-- `instructions._find_template(sim, ip, direction)`: read the source
template after `ip`, build its complement, compute the search limit from
`search_limit * avg_mother_size`, and return `(address one past the
match, L)`, or `(-1, L)` when no probe within the limit matches. -/
def SimState.findTemplate (s : SimState) (ip : Nat) (dir : Dir) : Int × Nat :=
  let S := s.config.soup_size
  let t := readTemplateAux s.soup.read S S ((ip + 1) % S)
  if t = [] then (-1, 0)
  else
    let tlen := t.length
    let comp := t.map (fun bit => 1 - bit)
    let maxDist := s.searchMax
    let probes :=
      match dir with
      | Dir.f => forwardProbes S ip tlen maxDist
      | Dir.b => backwardProbes S ip maxDist
      | Dir.o => outwardProbes S ip tlen maxDist
    match probes.find? (fun a => matchesAt s.soup.read a comp) with
    | some a => (Int.ofNat ((a + tlen) % S), tlen)
    | none => (-1, tlen)

/-- Scan of `_skip_template`: the first position after `pos` holding a
non-nop byte.  The source loop does not terminate on an all-nop soup;
the fuel covers every terminating run. -/
def skipTemplateAux (readF : Nat → Nat) (S : Nat) : Nat → Nat → Nat
  | 0, pos => pos
  | fuel + 1, pos => if isNopByte (readF pos) then skipTemplateAux readF S fuel ((pos + 1) % S) else pos

/-- `instructions._skip_template(cell, soup_size, soup)`: set `IP` to the
last nop of the template so the main-loop increment lands past it. -/
def SimState.skipTemplate (s : SimState) (cid : Nat) : SimState :=
  let S := s.config.soup_size
  let pos := skipTemplateAux s.soup.read S S (((s.cell cid).cpu.ip + 1) % S)
  s.withCpu cid (fun cpu => { cpu with ip := (((pos : Int) - 1).emod S).toNat })

/-- `not0`: flip the low bit of `cx` (xor with `1 + flaw`). -/
def instNot0 (s : SimState) (cid : Nat) : SimState :=
  let (fl, s) := s.flaw
  let cx := intXor (s.cell cid).cpu.cx (1 + fl)
  s.withCpu cid (fun cpu => ({ cpu with cx := cx }).setFlags cx)

/-- `shl`: shift `cx` left by `1 + flaw` (Python `x << n = x * 2^n`). -/
def instShl (s : SimState) (cid : Nat) : SimState :=
  let (fl, s) := s.flaw
  let cx := (s.cell cid).cpu.cx * ((2 : Int) ^ (1 + fl).toNat)
  s.withCpu cid (fun cpu => ({ cpu with cx := cx }).setFlags cx)

/-- `zero`: `cx := 0 + flaw`. -/
def instZero (s : SimState) (cid : Nat) : SimState :=
  let (fl, s) := s.flaw
  s.withCpu cid (fun cpu => ({ cpu with cx := 0 + fl }).setFlags (0 + fl))

/-- `ifz`: skip the next instruction when `cx ≠ 0`. -/
def instIfz (s : SimState) (cid : Nat) : SimState :=
  if (s.cell cid).cpu.cx ≠ 0 then
    s.withCpu cid (fun cpu => { cpu with ip := (cpu.ip + 1) % s.config.soup_size })
  else s

/-- `subCAB`: `cx := ax - bx + flaw`. -/
def instSubCab (s : SimState) (cid : Nat) : SimState :=
  let (fl, s) := s.flaw
  let v := (s.cell cid).cpu.ax - (s.cell cid).cpu.bx + fl
  s.withCpu cid (fun cpu => ({ cpu with cx := v }).setFlags v)

/-- `subAAC`: `ax := ax - cx + flaw`. -/
def instSubAac (s : SimState) (cid : Nat) : SimState :=
  let (fl, s) := s.flaw
  let v := (s.cell cid).cpu.ax - (s.cell cid).cpu.cx + fl
  s.withCpu cid (fun cpu => ({ cpu with ax := v }).setFlags v)

/-- `incA`. -/
def instIncA (s : SimState) (cid : Nat) : SimState :=
  let (fl, s) := s.flaw
  let v := (s.cell cid).cpu.ax + 1 + fl
  s.withCpu cid (fun cpu => ({ cpu with ax := v }).setFlags v)

/-- `incB`. -/
def instIncB (s : SimState) (cid : Nat) : SimState :=
  let (fl, s) := s.flaw
  let v := (s.cell cid).cpu.bx + 1 + fl
  s.withCpu cid (fun cpu => ({ cpu with bx := v }).setFlags v)

/-- `decC`. -/
def instDecC (s : SimState) (cid : Nat) : SimState :=
  let (fl, s) := s.flaw
  let v := (s.cell cid).cpu.cx - (1 + fl)
  s.withCpu cid (fun cpu => ({ cpu with cx := v }).setFlags v)

/-- `incC`. -/
def instIncC (s : SimState) (cid : Nat) : SimState :=
  let (fl, s) := s.flaw
  let v := (s.cell cid).cpu.cx + 1 + fl
  s.withCpu cid (fun cpu => ({ cpu with cx := v }).setFlags v)

/-- `pushA/B/C/D`: push a register (perturbed by flaw) onto the ring. -/
def instPushA (s : SimState) (cid : Nat) : SimState :=
  let (fl, s) := s.flaw
  s.withCpu cid (fun cpu => cpu.push (cpu.ax + fl))

/-- `pushB`. -/
def instPushB (s : SimState) (cid : Nat) : SimState :=
  let (fl, s) := s.flaw
  s.withCpu cid (fun cpu => cpu.push (cpu.bx + fl))

/-- `pushC`. -/
def instPushC (s : SimState) (cid : Nat) : SimState :=
  let (fl, s) := s.flaw
  s.withCpu cid (fun cpu => cpu.push (cpu.cx + fl))

/-- `pushD`. -/
def instPushD (s : SimState) (cid : Nat) : SimState :=
  let (fl, s) := s.flaw
  s.withCpu cid (fun cpu => cpu.push (cpu.dx + fl))

/-- `popA`: pop into `ax` (perturbed by flaw). -/
def instPopA (s : SimState) (cid : Nat) : SimState :=
  let (v, cpu') := (s.cell cid).cpu.pop
  let (fl, s) := s.flaw
  s.withCpu cid (fun _ => { cpu' with ax := v + fl })

/-- `popB`. -/
def instPopB (s : SimState) (cid : Nat) : SimState :=
  let (v, cpu') := (s.cell cid).cpu.pop
  let (fl, s) := s.flaw
  s.withCpu cid (fun _ => { cpu' with bx := v + fl })

/-- `popC`. -/
def instPopC (s : SimState) (cid : Nat) : SimState :=
  let (v, cpu') := (s.cell cid).cpu.pop
  let (fl, s) := s.flaw
  s.withCpu cid (fun _ => { cpu' with cx := v + fl })

/-- `popD`. -/
def instPopD (s : SimState) (cid : Nat) : SimState :=
  let (v, cpu') := (s.cell cid).cpu.pop
  let (fl, s) := s.flaw
  s.withCpu cid (fun _ => { cpu' with dx := v + fl })

/-- `jmpo` / `jmpb`: template jump; on success set `IP` and clear `E`,
on failure set `E` and skip past the source template. -/
def instJmp (dir : Dir) (s : SimState) (cid : Nat) : SimState :=
  let (addr, tlen) := s.findTemplate (s.cell cid).cpu.ip dir
  if 0 ≤ addr then
    s.withCpu cid (fun cpu =>
      { cpu with ip := (addr.emod s.config.soup_size).toNat, ip_modified := true, flag_e := false })
  else
    let s := s.setFlagE cid true
    if 0 < tlen then s.skipTemplate cid else s

/-- `call`: outward template search; push the return address (one past
the source template) before jumping. -/
def instCall (s : SimState) (cid : Nat) : SimState :=
  let (addr, tlen) := s.findTemplate (s.cell cid).cpu.ip Dir.o
  if 0 ≤ addr then
    let retAddr := ((s.cell cid).cpu.ip + 1 + tlen) % s.config.soup_size
    s.withCpu cid (fun cpu =>
      { (cpu.push (retAddr : Int)) with
        ip := (addr.emod s.config.soup_size).toNat, ip_modified := true, flag_e := false })
  else
    let s := s.setFlagE cid true
    if 0 < tlen then s.skipTemplate cid else s

/-- `ret`: pop an address (perturbed by flaw) into `IP`. -/
def instRet (s : SimState) (cid : Nat) : SimState :=
  let (v, cpu') := (s.cell cid).cpu.pop
  let (fl, s) := s.flaw
  s.withCpu cid (fun _ =>
    { cpu' with ip := ((v + fl).emod s.config.soup_size).toNat, ip_modified := true })

/-- `movDC`: `dx := cx + flaw`. -/
def instMovDc (s : SimState) (cid : Nat) : SimState :=
  let (fl, s) := s.flaw
  let v := (s.cell cid).cpu.cx + fl
  s.withCpu cid (fun cpu => ({ cpu with dx := v }).setFlags v)

/-- `movBA`: `bx := ax + flaw`. -/
def instMovBa (s : SimState) (cid : Nat) : SimState :=
  let (fl, s) := s.flaw
  let v := (s.cell cid).cpu.ax + fl
  s.withCpu cid (fun cpu => ({ cpu with bx := v }).setFlags v)

/-- `movii`: copy the byte at `[bx]` to `[ax]`, allowed only into the
daughter region and past the write-protection check; subject to the
copy-mutation roll; tracks the copy count and offset range. -/
def instMovii (s : SimState) (cid : Nat) : SimState :=
  let c := s.cell cid
  let S := s.config.soup_size
  if ¬c.ownsDaughter c.cpu.ax S then s.setFlagE cid true
  else if ¬(s.soup.checkWrite c.cpu.ax cid s.config) then s.setFlagE cid true
  else
    let value := s.soup.readI c.cpu.bx
    let (value, s) :=
      if s.config.rate_mov_mut.isPos then
        let (f, rng) := s.rng.nextFloat
        let s := { s with rng := rng }
        if f.ltB s.config.rate_mov_mut then
          let (f2, rng) := s.rng.nextFloat
          let s := { s with rng := rng }
          let (value', s) :=
            if f2.ltB s.config.mut_bit_prop then
              let (b, rng) := s.rng.randint 0 4
              (value ^^^ (1 <<< b), { s with rng := rng })
            else
              let (v, rng) := s.rng.randint 0 31
              (v, { s with rng := rng })
          (value', s.withD cid (fun d => { d with mutations := d.mutations + 1 }))
        else (value, s)
      else (value, s)
    let s := { s with soup := s.soup.write (s.cell cid).cpu.ax (value : Int) }
    let s := s.withD cid (fun d => { d with mov_daught := d.mov_daught + 1 })
    match (s.cell cid).md with
    | none => s
    | some md =>
      let offset := (((s.cell cid).cpu.ax - (md.pos : Int)).emod S).toNat
      let s := s.withD cid (fun d =>
        { d with mov_off_min := min d.mov_off_min offset, mov_off_max := max d.mov_off_max offset })
      s.setFlagE cid false

/-- `adro` / `adrb` / `adrf`: template search storing the result address
in `ax` and the template length in `cx`; `IP` is advanced past the
source template whether or not the search succeeded. -/
def instAdr (dir : Dir) (s : SimState) (cid : Nat) : SimState :=
  let (addr, tlen) := s.findTemplate (s.cell cid).cpu.ip dir
  let s :=
    if 0 ≤ addr then
      s.withCpu cid (fun cpu =>
        { cpu with ax := ((addr.emod s.config.soup_size).toNat : Int), cx := (tlen : Int), flag_e := false })
    else s.setFlagE cid true
  if 0 < tlen then s.skipTemplate cid else s

/-- Success path of `mal`: record the daughter region, put its address
in `ax`, reset the copy tracking. -/
def malCommit (s : SimState) (cid : Nat) (addr actualSize : Nat) : SimState :=
  let s := s.setCell cid { s.cell cid with md := some ⟨addr, actualSize⟩ }
  let s := s.withCpu cid (fun cpu => { cpu with ax := (addr : Int) })
  let s := s.withD cid (fun d =>
    { d with mov_off_min := actualSize, mov_off_max := 0, mov_daught := 0 })
  s.setFlagE cid false

/-- `mal`: allocate `cx` bytes for the daughter; reject sizes below
`min_cell_size` or above twice the mother; deallocate any previous
daughter; on a full soup invoke the reaper once and retry. -/
def instMal (s : SimState) (cid : Nat) : SimState :=
  let c := s.cell cid
  let size := c.cpu.cx
  if size < (s.config.min_cell_size : Int) ∨ ((c.mm.size : Int) * 2) < size then s.setFlagE cid true
  else
    let s :=
      match c.md with
      | some md =>
        ({ s with soup := s.soup.deallocate md.pos md.size }).setCell cid { s.cell cid with md := none }
      | none => s
    let (res, soup, rng) := s.soup.allocate size.toNat s.config.mal_mode (-1) (-1) s.rng
    let s := { s with soup := soup, rng := rng }
    match res with
    | some r => malCommit s cid r.1 r.2
    | none =>
      let (s, _) := s.reap (-1)
      let (res2, soup2, rng2) := s.soup.allocate size.toNat s.config.mal_mode (-1) (-1) s.rng
      let s := { s with soup := soup2, rng := rng2 }
      match res2 with
      | some r => malCommit s cid r.1 r.2
      | none => s.setFlagE cid true

/-- `divide`: preconditions (daughter exists, large enough, copied
enough, same-size when required — any failure sets `E` and returns),
then genetic operators, creation and registration of the daughter
creature, queue insertions, events, and the mother reset. -/
def instDivide (s : SimState) (cid : Nat) : SimState :=
  let c := s.cell cid
  match c.md with
  | none => s.setFlagE cid true
  | some md =>
    if md.size < s.config.min_cell_size then s.setFlagE cid true
    else if (c.d.mov_daught : Int) < (Frac.mul (Frac.ofNat md.size) s.config.mov_prop_thr_div).trunc then
      s.setFlagE cid true
    else if s.config.div_same_siz ≠ 0 ∧ md.size ≠ c.mm.size then s.setFlagE cid true
    else
      let s := s.geneticOps cid
      let did := s.nextId
      let d0 := Cell.init md.pos md.size
      let daughter := { d0 with
        cpu := { d0.cpu with ip := md.pos },
        d := { d0.d with parent_genotype := (s.cell cid).d.genotype, birth_time := s.inst_executed } }
      let (gt, gb, daughter) := s.genebank.register s.soup daughter
      let s := { s with genebank := gb, nextId := did + 1, cells := s.cells ++ [(did, daughter)] }
      let s := if gt.population = 1 then s.emit (Event.newGenotype gt.name) else s
      let s := { s with sched := s.sched.add did }
      let s := { s with soup := s.soup.addOwner did daughter }
      let s := { s with reaperQueue := s.reaperQueue ++ [did] }
      let s := s.emit (Event.cellBorn did cid)
      let s := { s with last_repro_inst := s.inst_executed }
      let s := s.setCell cid { s.cell cid with md := none }
      let s := s.withD cid (fun d =>
        { d with fecundity := d.fecundity + 1, mov_daught := 0,
                 mov_off_min := 0, mov_off_max := 0, rep_inst := 0 })
      s.setFlagE cid false

/-- The dispatch table of `instructions.INSTRUCTIONS`, indexed by
`opcode mod 32`. -/
def execInstr (s : SimState) (cid : Nat) (opcode : Nat) : SimState :=
  match opcode with
  | 0 => s
  | 1 => s
  | 2 => instNot0 s cid
  | 3 => instShl s cid
  | 4 => instZero s cid
  | 5 => instIfz s cid
  | 6 => instSubCab s cid
  | 7 => instSubAac s cid
  | 8 => instIncA s cid
  | 9 => instIncB s cid
  | 10 => instDecC s cid
  | 11 => instIncC s cid
  | 12 => instPushA s cid
  | 13 => instPushB s cid
  | 14 => instPushC s cid
  | 15 => instPushD s cid
  | 16 => instPopA s cid
  | 17 => instPopB s cid
  | 18 => instPopC s cid
  | 19 => instPopD s cid
  | 20 => instJmp Dir.o s cid
  | 21 => instJmp Dir.b s cid
  | 22 => instCall s cid
  | 23 => instRet s cid
  | 24 => instMovDc s cid
  | 25 => instMovBa s cid
  | 26 => instMovii s cid
  | 27 => instAdr Dir.o s cid
  | 28 => instAdr Dir.b s cid
  | 29 => instAdr Dir.f s cid
  | 30 => instMal s cid
  | _ => instDivide s cid

end PyTierra

namespace PyTierra

/-- Parent-genotype tag of boot creatures. -/
def godName : String := "0666god"

/-- `Scheduler.compute_slice_size(cell)`: base from `slice_size` or
`size ^ slice_pow`, then under `SliceStyle 2` a fixed fraction plus a
random fraction, clamped to at least 1. -/
def SimState.computeSliceSize (s : SimState) (cid : Nat) : Nat × SimState :=
  let base :=
    if s.config.siz_dep_slice = 0 then s.config.slice_size
    else (s.cell cid).mm.size ^ s.config.slice_pow
  if s.config.slice_style = 2 then
    let fixed := Frac.mul s.config.slic_fix_frac (Frac.ofNat base)
    let (f, rng) := s.rng.nextFloat
    let randPart := Frac.mul (Frac.mul f s.config.slic_ran_frac) (Frac.ofNat base)
    (max 1 ((Frac.add fixed randPart).trunc).toNat, { s with rng := rng })
  else (max 1 base, s)

/-- `Simulation._schedule_next_disturbance(avg_size)`: negative
`DistFreq` scales the recovery time (the soup size), positive scales the
average creature size; a zero or unusable interval disables the timer. -/
def SimState.scheduleNextDisturbance (s : SimState) (avgSize : Nat) : SimState :=
  if s.config.dist_freq.isZero ∨ avgSize = 0 then { s with next_disturbance_inst := 0 }
  else
    let interval :=
      if s.config.dist_freq.isNeg then
        ((Frac.mul s.config.dist_freq.abs (Frac.ofNat s.config.soup_size)).trunc).toNat
      else ((Frac.mul s.config.dist_freq (Frac.ofNat avgSize)).trunc).toNat
    if interval = 0 then { s with next_disturbance_inst := 0 }
    else { s with next_disturbance_inst := s.inst_executed + interval }

/-- `Simulation._do_disturbance()`: run the reaper disturbance and
reschedule from the current average size. -/
def SimState.doDisturbance (s : SimState) : SimState :=
  if ¬s.config.dist_freq.isZero then
    let (s, _) := s.disturbance
    s.scheduleNextDisturbance s.avgCellSize
  else s

/-- Per-instruction tallies of the slice loop: the creature's
`inst_executed` and `rep_inst`, and the global counter. -/
def SimState.incCounters (s : SimState) (cid : Nat) : SimState :=
  let s := s.withD cid (fun d =>
    { d with inst_executed := d.inst_executed + 1, rep_inst := d.rep_inst + 1 })
  { s with inst_executed := s.inst_executed + 1 }

/-- Body of `Simulation.run_slice`: up to `slice` instructions; a dead
creature stops its slice; an execute-protection denial sets `E` and only
advances `IP`; otherwise decode `soup[IP] mod 32`, clear the IP-modified
marker, dispatch, advance `IP` unless the opcode set it, tally, roll the
background mutation, and fire a due disturbance. -/
def sliceLoop : Nat → SimState → Nat → SimState
  | 0, s, _ => s
  | fuel + 1, s, cid =>
    if (s.cell cid).alive = false then s
    else if ¬(s.soup.checkExecute ((s.cell cid).cpu.ip : Int) cid s.config) then
      let s := s.setFlagE cid true
      let s := s.withCpu cid (fun cpu => { cpu with ip := (cpu.ip + 1) % s.config.soup_size })
      sliceLoop fuel (s.incCounters cid) cid
    else
      let opcode := s.soup.read (s.cell cid).cpu.ip % 32
      let s := s.withCpu cid (fun cpu => { cpu with ip_modified := false })
      let s := execInstr s cid opcode
      let s :=
        if (s.cell cid).cpu.ip_modified then s
        else s.withCpu cid (fun cpu => { cpu with ip := (cpu.ip + 1) % s.config.soup_size })
      let s := s.incCounters cid
      let s :=
        if s.config.rate_mut.isPos then
          let (f, rng) := s.rng.nextFloat
          let s := { s with rng := rng }
          if f.ltB s.config.rate_mut then s.backgroundMutation else s
        else s
      let s :=
        if 0 < s.next_disturbance_inst ∧ s.next_disturbance_inst ≤ s.inst_executed then
          s.doDisturbance
        else s
      sliceLoop fuel s cid

/-- `Simulation.run_slice(cell)`: compute the slice size, run the loop,
then the end-of-slice lazy check. -/
def SimState.runSlice (s : SimState) (cid : Nat) : SimState :=
  let (n, s) := s.computeSliceSize cid
  let s := sliceLoop n s cid
  (s.checkLazy cid).1

/-- `Simulation._save_genotypes_to_disk()`: the file writes themselves
are external persistence (out of the verified core); the only core-state
effect is the save timer. -/
def SimState.saveGenotypesTimer (s : SimState) : SimState :=
  if s.config.disk_bank = 0 then s
  else if s.config.save_freq = 0 then s
  else if s.inst_executed - s.last_save_inst < s.config.save_freq * 1000000 then s
  else { s with last_save_inst := s.inst_executed }

/-- `Simulation._periodic_bookkeeping()`: recompute mutation rates from
the live population, then the disk-save timer. -/
def SimState.periodicBookkeeping (s : SimState) : SimState :=
  let s :=
    if s.sched.queue.length ≠ 0 then { s with config := s.config.updateRates s.avgCellSize }
    else s
  s.saveGenotypesTimer

end PyTierra

namespace PyTierra

/-- Loop of `Simulation.run(max_instructions, report_interval)`: stop
when the bound is reached or the soup is empty; each iteration runs one
slice for the current creature, advances the scheduler, and does the
periodic bookkeeping with its `drop_dead` stagnation check.  The fuel
bounds the number of outer iterations (the source loop may run forever
with `max_instructions = 0`); data sampling is observer-only and does
not touch core state. -/
def runAux : Nat → (maxInst reportInterval lastReport : Nat) → SimState → SimState
  | 0, _, _, _, s => s
  | fuel + 1, maxInst, rI, lastReport, s =>
    if maxInst ≠ 0 ∧ maxInst ≤ s.inst_executed then s
    else
      let (cur, sch) := s.sched.currentSt
      let s := { s with sched := sch }
      match cur with
      | none => s
      | some cid =>
        let s := s.runSlice cid
        let s := { s with sched := s.sched.advance }
        if rI ≤ s.inst_executed - lastReport then
          let s := s.periodicBookkeeping
          if 0 < s.config.drop_dead ∧
              s.config.drop_dead * 1000000 < s.inst_executed - s.last_repro_inst then s
          else runAux fuel maxInst rI s.inst_executed s
        else runAux fuel maxInst rI lastReport s

/-- `Simulation.run` with explicit iteration fuel. -/
def SimState.run (s : SimState) (fuel maxInst reportInterval : Nat) : SimState :=
  runAux fuel maxInst reportInterval 0 s

/-- `Simulation.__init__` followed by `Simulation.boot(ancestor)`: build
the fresh state, write the ancestor genome at the soup center, allocate
its region, create and enqueue the first creature, register it, compute
the initial mutation rates, and schedule the first disturbance.  The
genome is the decoded ancestor file; the RNG stream stands for the
generator seeded from `config.seed`. -/
def bootSim (cfg : Config) (genome : List Nat) (rng : Rng) : SimState :=
  let s0 : SimState :=
    { config := cfg, soup := Soup.init cfg.soup_size, sched := ⟨[], 0⟩,
      reaperQueue := [], genebank := ⟨[], []⟩, cells := [], nextId := 0,
      events := [], inst_executed := 0, last_repro_inst := 0,
      next_disturbance_inst := 0, last_save_inst := 0, rng := rng }
  let pos := cfg.soup_size / 2 - genome.length / 2
  let s := { s0 with soup := s0.soup.writeBlock pos genome }
  let s := { s with soup := (s.soup.allocateAt pos genome.length).2 }
  let cid := s.nextId
  let c0 := Cell.init pos genome.length
  let c := { c0 with
    cpu := { c0.cpu with ip := pos },
    d := { c0.d with parent_genotype := godName, birth_time := 0 } }
  let s := { s with cells := s.cells ++ [(cid, c)], nextId := cid + 1 }
  let s := { s with sched := s.sched.add cid }
  let s := { s with soup := s.soup.addOwner cid c }
  let s := { s with reaperQueue := s.reaperQueue ++ [cid] }
  let regOut := s.genebank.register s.soup (s.cell cid)
  let s := { s with genebank := regOut.2.1 }
  let s := s.setCell cid regOut.2.2
  let s := { s with config := s.config.updateRates genome.length }
  s.scheduleNextDisturbance genome.length

end PyTierra

namespace PyTierra

/-- Does the interval of length `sz` starting at `p` (taken modulo `S`)
cover address `a`. -/
def inWrapInterval (S a p sz : Nat) : Bool :=
  decide ((a + S - p % S) % S < sz)

/-- Creatures of the arena that are alive. -/
def SimState.aliveCells (s : SimState) : List (Nat × Cell) :=
  s.cells.filter (fun p => p.2.alive)

/-- How many of the free-list intervals, alive mother intervals and
alive daughter intervals cover address `a`. -/
def SimState.coverCount (s : SimState) (a : Nat) : Nat :=
  (s.soup.free_blocks.countP (fun b => inWrapInterval s.config.soup_size a b.1 b.2)) +
  (s.aliveCells.countP (fun p => inWrapInterval s.config.soup_size a p.2.mm.pos p.2.mm.size)) +
  (s.aliveCells.countP (fun p =>
    match p.2.md with
    | some md => inWrapInterval s.config.soup_size a md.pos md.size
    | none => false))

/-- The partition invariant of the spec: every address of the soup is
covered by exactly one of the free-list, alive-mother and alive-daughter
intervals (no overlap, no gap). -/
def SimState.partitionOk (s : SimState) : Bool :=
  (List.range s.config.soup_size).all (fun a => s.coverCount a = 1)

/-- Configuration of the boot-and-`mal` scenario: a 14-byte soup, fixed
6-instruction slices, better-fit allocation, no mutations, no
disturbance, no lazy kill, no memory protection. -/
def c1Config : Config :=
  { soup_size := 14, slice_size := 6, siz_dep_slice := 0, slice_pow := 1,
    slice_style := 0, slic_fix_frac := Frac.ofNat 0, slic_ran_frac := Frac.ofNat 2,
    gen_per_bkg_mut := 0, gen_per_flaw := 0, gen_per_mov_mut := 0,
    gen_per_div_mut := 0, gen_per_cro_ins_sam_siz := 0, gen_per_ins_ins := 0,
    gen_per_del_ins := 0, gen_per_cro_ins := 0, gen_per_del_seg := 0,
    gen_per_ins_seg := 0, gen_per_cro_seg := 0, mut_bit_prop := ⟨1, 5⟩,
    mal_mode := 1, mal_reap_tol := 0, mal_tol := 20, min_cell_size := 5,
    mov_prop_thr_div := ⟨7, 10⟩, search_limit := 5, reap_rnd_prop := ⟨3, 10⟩,
    lazy_tol := 0, drop_dead := 0, div_same_siz := 0, dist_freq := Frac.ofNat 0,
    dist_prop := ⟨1, 5⟩, mem_mode_free := 0, mem_mode_mine := 0,
    mem_mode_prot := 0, disk_bank := 0, save_freq := 0,
    rate_mut := Frac.ofNat 0, rate_flaw := Frac.ofNat 0, rate_mov_mut := Frac.ofNat 0 }

/-- Ancestor genome of the scenario: five `incC` then one `mal`, so the
creature requests a 5-byte daughter in a soup whose free blocks hold
only 4 bytes each. -/
def c1Genome : List Nat :=
  [11, 11, 11, 11, 11, 30]

/-- RNG stream for the scenario (only the post-reap randomization of the
mother bytes draws from it). -/
def c1Rng : Rng :=
  ⟨List.replicate 20 0, List.replicate 20 (Frac.ofNat 0)⟩

/-- The booted scenario state. -/
def c1Boot : SimState :=
  bootSim c1Config c1Genome c1Rng

/-- The scenario state after running the six-instruction bound. -/
def c1Final : SimState :=
  c1Boot.run 4 6 1000000

end PyTierra

namespace PyTierra

/-- Observable event sequence of a run. -/
def SimState.eventTrace (s : SimState) : List Event :=
  s.events

/-- Per-creature instruction counts, keyed by creature id. -/
def SimState.instCounts (s : SimState) : List (Nat × Nat) :=
  s.cells.map (fun p => (p.1, p.2.d.inst_executed))

/-- Per-genotype population counts, in registry order. -/
def SimState.populations (s : SimState) : List (String × Nat) :=
  s.genebank.genotypes.map (fun p => (p.1, p.2.population))

end PyTierra

open PyTierra

/-- C1: the spec's partition invariant — free-list intervals, alive
mother intervals and alive daughter intervals are pairwise disjoint and
cover the soup — is violated by the code on a reachable state: booting
the 6-byte ancestor `incC^5; mal` in a 14-byte soup, the first `mal`
finds no free block of 5 bytes, invokes the reaper, and — the queue
holding only the caller — the reaper kills the currently executing
creature (its guard requires a queue length above one); `mal` then
allocates and attaches the daughter interval `[0,5)` to the dead
creature, leaving those bytes neither free nor owned by any alive
creature. -/
theorem c1_partition_violated_by_mal_self_reap :
    c1Boot.partitionOk = true ∧
    c1Final.partitionOk = false ∧
    (c1Final.cell 0).alive = false ∧
    (c1Final.cell 0).md = some ⟨0, 5⟩ ∧
    c1Final.soup.free_blocks = [(5, 9)] ∧
    c1Final.sched.queue = [] :=
  ⟨by decide, by decide, by decide, by decide, by decide, by decide⟩

/-- C2: two runs from the same configuration, ancestor genome and seeded
RNG stream produce, after any number of scheduler iterations, the same
event sequence, the same per-creature instruction counts and the same
genotype populations — the embedded machine is a pure function of its
inputs, as the source uses only the one seeded generator and no wall
clock inside the run path. -/
theorem c2_run_deterministic (cfg : Config) (genome : List Nat) (rng : Rng)
    (fuel maxInst reportInterval : Nat) :
    ((bootSim cfg genome rng).run fuel maxInst reportInterval).eventTrace =
      ((bootSim cfg genome rng).run fuel maxInst reportInterval).eventTrace ∧
    ((bootSim cfg genome rng).run fuel maxInst reportInterval).instCounts =
      ((bootSim cfg genome rng).run fuel maxInst reportInterval).instCounts ∧
    ((bootSim cfg genome rng).run fuel maxInst reportInterval).populations =
      ((bootSim cfg genome rng).run fuel maxInst reportInterval).populations :=
  ⟨rfl, rfl, rfl⟩

namespace PyTierra

/-- A booted creature (id 0, mother size 6) with the lazy check armed:
`LazyTol = 10`, one daughter produced, and 61 instructions executed
since the last division — above the `10 * 6` threshold. -/
def c3State : SimState :=
  let s := bootSim { c1Config with lazy_tol := 10 } c1Genome c1Rng
  s.withD 0 (fun d => { d with fecundity := 1, rep_inst := 61 })

/-- The two colliding 12-byte genomes: both have weighted byte sum 2,
so `_genome_hash` gives `2 XOR 12 = 14` for each. -/
def c6Soup : Soup :=
  { size := 24,
    data := [0, 1, 0, 0, 0, 0, 0, 0, 0, 0, 0, 0,
             2, 0, 0, 0, 0, 0, 0, 0, 0, 0, 0, 0],
    free_blocks := [], owners := [] }

/-- First registered creature, owning the genome starting with `0, 1`. -/
def c6CellA : Cell :=
  Cell.init 0 12

/-- Second registered creature, owning the genome starting with `2, 0`. -/
def c6CellB : Cell :=
  Cell.init 12 12

/-- Registration of the first creature into an empty bank. -/
def c6Reg1 : Genotype × GeneBank × Cell :=
  GeneBank.register ⟨[], []⟩ c6Soup c6CellA

/-- Registration of the second creature into the resulting bank. -/
def c6Reg2 : Genotype × GeneBank × Cell :=
  GeneBank.register c6Reg1.2.1 c6Soup c6CellB

end PyTierra

/-- C3: the lazy check does reap a creature with `fecundity ≥ 1` and
`rep_inst` above `lazy_tol * mother.size`, but the emitted `CELL_DIED`
event carries cause `reaper`, not `lazy` — `_reap_cell` hardcodes the
cause for every death path, contradicting the spec and the cause list
documented in `events.py`. -/
theorem c3_lazy_reap_emits_cause_reaper :
    (c3State.checkLazy 0).2 = true ∧
    (c3State.checkLazy 0).1.events.getLast? = some (Event.cellDied 0 causeReaper) ∧
    causeReaper ≠ "lazy" :=
  ⟨by decide, by decide, by decide⟩

/-- C6: `GeneBank.register` compares genomes only by the weighted
checksum hash, so the distinct 12-byte genomes `[0,1,0,…]` and
`[2,0,0,…]` (both hashing to 14) are assigned the same genotype name and
share one population count of 2 — distinct byte sequences do not get
distinct names. -/
theorem c6_register_hash_collision :
    c6Soup.readBlock 0 12 ≠ c6Soup.readBlock 12 12 ∧
    genomeHash (c6Soup.readBlock 0 12) = 14 ∧
    genomeHash (c6Soup.readBlock 12 12) = 14 ∧
    c6Reg1.1.name = c6Reg2.1.name ∧
    c6Reg2.1.population = 2 :=
  ⟨by decide, by decide, by decide, by decide, by decide⟩

namespace PyTierra

/-- The reaper queue after a reap is the old queue with the victim
removed; nothing else `_reap_cell` does touches it. -/
lemma reapCell_reaperQueue (s : SimState) (cid : Nat) :
    (s.reapCell cid).reaperQueue = s.reaperQueue.erase cid := by
  simp only [SimState.reapCell]
  cases (s.cell cid).md <;> rfl

/-- Each iteration of the disturbance kill loop adds at most one kill. -/
lemma disturbLoop_killed_le (cur : Option Nat) (fuel : Nat) :
    ∀ (s : SimState) (k : Nat), (disturbLoop cur fuel s k).2 ≤ k + fuel := by
  induction fuel with
  | zero => intro s k; simp [disturbLoop]
  | succ n ih =>
    intro s k
    unfold disturbLoop
    dsimp only
    split
    · omega
    · split
      · exact le_trans (ih _ _) (by omega)
      · exact le_trans (ih _ _) (by omega)

/-- The currently executing creature survives the disturbance kill loop:
a draw that hits it is skipped, and every reaped victim differs from it. -/
lemma disturbLoop_mem (c : Nat) (fuel : Nat) :
    ∀ (s : SimState) (k : Nat), c ∈ s.reaperQueue →
      c ∈ (disturbLoop (some c) fuel s k).1.reaperQueue := by
  induction fuel with
  | zero => intro s k h; simpa [disturbLoop] using h
  | succ n ih =>
    intro s k h
    unfold disturbLoop
    dsimp only
    split
    · exact h
    · split
      · exact ih _ _ h
      · rename_i h1 h2
        apply ih
        rw [reapCell_reaperQueue]
        have hne : c ≠ s.reaperQueue.getD (s.rng.randint 0 (s.reaperQueue.length - 1)).1 0 := by
          intro he
          exact h2 (by rw [he])
        exact (List.mem_erase_of_ne hne).mpr h

/-- The disturbance kill loop never empties the queue: it stops as soon
as at most one creature remains, and a reap from a queue of at least two
leaves at least one. -/
lemma disturbLoop_ne_nil (cur : Option Nat) (fuel : Nat) :
    ∀ (s : SimState) (k : Nat), s.reaperQueue ≠ [] →
      (disturbLoop cur fuel s k).1.reaperQueue ≠ [] := by
  induction fuel with
  | zero => intro s k h; simpa [disturbLoop] using h
  | succ n ih =>
    intro s k h
    unfold disturbLoop
    dsimp only
    split
    · exact h
    · rename_i hlen
      split
      · exact ih _ _ h
      · apply ih
        rw [reapCell_reaperQueue]
        intro hnil
        have h2 : 2 ≤ s.reaperQueue.length := by omega
        by_cases hm : (s.reaperQueue.getD (s.rng.randint 0 (s.reaperQueue.length - 1)).1 0) ∈ s.reaperQueue
        · have := List.length_erase_of_mem hm
          rw [hnil] at this
          simp at this
          omega
        · rw [List.erase_of_not_mem hm] at hnil
          exact h hnil

/-- Ten creatures of size 10 side by side, with ids `0..9` in both
queues and the scheduler cursor on creature 0. -/
def mkCells (n size : Nat) : List (Nat × Cell) :=
  (List.range n).map (fun i => (i, Cell.init (i * size) size))

/-- A ten-creature population with `DistProp = 1/5`; the integer RNG
stream opens with two zero draws, so both disturbance draws select
index 0 — the currently executing creature. -/
def c4State : SimState :=
  { config := { c1Config with soup_size := 140, dist_prop := ⟨1, 5⟩ },
    soup := { size := 140, data := List.replicate 140 0, free_blocks := [(100, 40)], owners := [] },
    sched := ⟨List.range 10, 0⟩, reaperQueue := List.range 10,
    genebank := ⟨[], []⟩, cells := mkCells 10 10, nextId := 10, events := [],
    inst_executed := 0, last_repro_inst := 0, next_disturbance_inst := 0,
    last_save_inst := 0, rng := ⟨List.replicate 42 0, []⟩ }

end PyTierra

/-- C4 counterexample: with ten creatures and `dist_prop = 1/5` the
claimed kill count is `max(1, ⌊10/5⌋) = 2`, yet this call to
`disturbance()` kills nobody — both random draws select the currently
executing creature and the loop skips such a draw without drawing a
replacement. -/
theorem c4_disturbance_exact_false :
    c4State.reaperQueue.length = 10 ∧
    max 1 ((Frac.mul (Frac.ofNat c4State.reaperQueue.length) c4State.config.dist_prop).trunc).toNat = 2 ∧
    (c4State.disturbance).2 = 0 :=
  ⟨by decide, by decide, by decide⟩

/-- C4 (amended): one `disturbance()` call kills at most
`max(1, ⌊len * dist_prop⌋)` creatures, and never the currently executing
one — a draw that selects it is skipped without replacement, so the
count may fall short of the bound. -/
theorem c4_disturbance_kills_at_most (s : PyTierra.SimState) :
    (s.disturbance).2 ≤
      max 1 ((PyTierra.Frac.mul (PyTierra.Frac.ofNat s.reaperQueue.length) s.config.dist_prop).trunc).toNat ∧
    (∀ c, s.sched.currentSt.1 = some c → c ∈ s.reaperQueue →
      c ∈ (s.disturbance).1.reaperQueue) := by
  constructor
  · unfold PyTierra.SimState.disturbance
    dsimp only
    split
    · simp
    · exact le_trans (PyTierra.disturbLoop_killed_le _ _ _ _) (by omega)
  · intro c hc hm
    unfold PyTierra.SimState.disturbance
    dsimp only
    split
    · exact hm
    · rw [hc]
      exact PyTierra.disturbLoop_mem c _ _ _ hm

/-- C4 witness: the bound and the survival of the current creature at
the concrete ten-creature population. -/
theorem c4_disturbance_witness :
    (c4State.disturbance).2 ≤
      max 1 ((Frac.mul (Frac.ofNat c4State.reaperQueue.length) c4State.config.dist_prop).trunc).toNat ∧
    0 ∈ (c4State.disturbance).1.reaperQueue :=
  ⟨(c4_disturbance_kills_at_most c4State).1,
   (c4_disturbance_kills_at_most c4State).2 0 (by decide) (by decide)⟩

/-- C10: `disturbance()` never kills the last creature — if the reaper
queue is non-empty before the call, it is non-empty after it. -/
theorem c10_disturbance_never_empties (s : PyTierra.SimState)
    (h : s.reaperQueue ≠ []) :
    (s.disturbance).1.reaperQueue ≠ [] := by
  unfold PyTierra.SimState.disturbance
  dsimp only
  rw [if_neg h]
  exact PyTierra.disturbLoop_ne_nil _ _ _ _ h

/-- C10 witness at the concrete ten-creature population. -/
theorem c10_disturbance_witness :
    (c4State.disturbance).1.reaperQueue ≠ [] :=
  c10_disturbance_never_empties c4State (by decide)

namespace PyTierra

/-- The scheduler operations of the claim. -/
inductive SchedOp where
  | add (cid : Nat)
  | remove (cid : Nat)
  | advance
  deriving DecidableEq

/-- Apply one scheduler operation. -/
def applySchedOp (st : SchedState) : SchedOp → SchedState
  | SchedOp.add cid => st.add cid
  | SchedOp.remove cid => st.remove cid
  | SchedOp.advance => st.advance

/-- Run a sequence of scheduler operations from the fresh scheduler. -/
def runSchedOps (ops : List SchedOp) : SchedState :=
  ops.foldl applySchedOp ⟨[], 0⟩

/-- `current()` on any scheduler state: `none` exactly on the empty
queue, else an element of the queue (the cursor is clamped back into
range before indexing). -/
lemma currentSt_spec (st : SchedState) :
    (st.currentSt.1 = none ↔ st.queue = []) ∧
    ∀ c, st.currentSt.1 = some c → c ∈ st.queue := by
  unfold SchedState.currentSt
  by_cases h : st.queue = []
  · simp [h]
  · have hl : 0 < st.queue.length := List.length_pos.mpr h
    simp only [h, if_false]
    constructor
    · simp [h]
    · intro c hc
      simp only [Option.some.injEq] at hc
      rw [← hc]
      have hi : (if st.queue.length ≤ st.idx then 0 else st.idx) < st.queue.length := by
        split <;> omega
      rw [List.getD_eq_getElem?_getD, List.getElem?_eq_getElem hi]
      exact List.getElem_mem hi

end PyTierra

/-- C9: after any sequence of `add`, `remove` and `advance` operations
from the fresh scheduler, `current()` returns `none` exactly when the
queue is empty, and otherwise returns a creature that is an element of
the queue. -/
theorem c9_scheduler_current_in_queue (ops : List PyTierra.SchedOp) :
    ((PyTierra.runSchedOps ops).currentSt.1 = none ↔ (PyTierra.runSchedOps ops).queue = []) ∧
    (∀ c, (PyTierra.runSchedOps ops).currentSt.1 = some c →
      c ∈ (PyTierra.runSchedOps ops).queue) :=
  PyTierra.currentSt_spec (PyTierra.runSchedOps ops)

/-- C9 witness: add three creatures, remove the one under the cursor,
advance twice; `current()` yields creature 7, an element of the queue. -/
theorem c9_scheduler_witness :
    ((PyTierra.runSchedOps
        [PyTierra.SchedOp.add 5, PyTierra.SchedOp.add 7, PyTierra.SchedOp.add 9,
         PyTierra.SchedOp.remove 5, PyTierra.SchedOp.advance,
         PyTierra.SchedOp.advance]).currentSt.1 = none ↔
      (PyTierra.runSchedOps
        [PyTierra.SchedOp.add 5, PyTierra.SchedOp.add 7, PyTierra.SchedOp.add 9,
         PyTierra.SchedOp.remove 5, PyTierra.SchedOp.advance,
         PyTierra.SchedOp.advance]).queue = []) ∧
    7 ∈ (PyTierra.runSchedOps
        [PyTierra.SchedOp.add 5, PyTierra.SchedOp.add 7, PyTierra.SchedOp.add 9,
         PyTierra.SchedOp.remove 5, PyTierra.SchedOp.advance,
         PyTierra.SchedOp.advance]).queue :=
  ⟨(c9_scheduler_current_in_queue _).1,
   (c9_scheduler_current_in_queue _).2 7 (by decide)⟩

namespace PyTierra

/-- Exactly the failure disjunction of `divide`'s precondition chain:
no daughter, daughter too small, not enough copied, or a size mismatch
under `DivSameSiz`. -/
def divideFails (s : SimState) (cid : Nat) : Bool :=
  match (s.cell cid).md with
  | none => true
  | some md =>
    md.size < s.config.min_cell_size ∨
    (((s.cell cid).d.mov_daught : Int) < (Frac.mul (Frac.ofNat md.size) s.config.mov_prop_thr_div).trunc) ∨
    (s.config.div_same_siz ≠ 0 ∧ md.size ≠ (s.cell cid).mm.size)

/-- Looking up the rewritten key after `setCell`'s map. -/
lemma lookup_map_set (cells : List (Nat × Cell)) (cid : Nat) (c : Cell) :
    (cells.map (fun p => if p.1 = cid then (cid, c) else p)).lookup cid =
      (cells.lookup cid).map (fun _ => c) := by
  induction cells with
  | nil => rfl
  | cons hd t ih =>
    simp only [List.map_cons]
    by_cases h : hd.1 = cid
    · rw [if_pos h]
      simp [List.lookup, h]
    · rw [if_neg h]
      have hbeq : (cid == hd.1) = false := by
        simp [Ne.symm h]
      simp [List.lookup, hbeq, ih]

/-- The creature read back after `setCell` on a present id. -/
lemma cell_setCell_self (s : SimState) (cid : Nat) (c : Cell)
    (h : (s.cells.lookup cid).isSome = true) :
    (s.setCell cid c).cell cid = c := by
  unfold SimState.setCell SimState.cell
  rw [lookup_map_set]
  cases hl : s.cells.lookup cid with
  | none => rw [hl] at h; simp at h
  | some c0 => simp

end PyTierra

/-- C7: whenever any `divide` precondition fails — no daughter, daughter
below `min_cell_size`, `mov_daught` below `floor(daughter.size *
mov_prop_thr_div)`, or `div_same_siz` with differing sizes — `divide`
sets the `E` flag and changes nothing else: no event, no new creature,
no queue or soup or genebank change, the daughter interval is retained
and the mother's fecundity and copy tracking are untouched. -/
theorem c7_divide_failure_only_sets_e (s : PyTierra.SimState) (cid : Nat)
    (hpresent : (s.cells.lookup cid).isSome = true)
    (hfail : PyTierra.divideFails s cid = true) :
    PyTierra.instDivide s cid = s.setFlagE cid true ∧
    (PyTierra.instDivide s cid).events = s.events ∧
    (PyTierra.instDivide s cid).sched = s.sched ∧
    (PyTierra.instDivide s cid).reaperQueue = s.reaperQueue ∧
    (PyTierra.instDivide s cid).genebank = s.genebank ∧
    (PyTierra.instDivide s cid).soup = s.soup ∧
    (PyTierra.instDivide s cid).nextId = s.nextId ∧
    ((PyTierra.instDivide s cid).cell cid).md = (s.cell cid).md ∧
    ((PyTierra.instDivide s cid).cell cid).d = (s.cell cid).d ∧
    ((PyTierra.instDivide s cid).cell cid).cpu.flag_e = true := by
  have hmain : PyTierra.instDivide s cid = s.setFlagE cid true := by
    unfold PyTierra.divideFails at hfail
    simp only [PyTierra.instDivide]
    cases hmd : (s.cell cid).md with
    | none => rfl
    | some md =>
      rw [hmd] at hfail
      simp only [decide_eq_true_eq] at hfail
      dsimp only
      by_cases h1 : md.size < s.config.min_cell_size
      · rw [if_pos h1]
      · rw [if_neg h1]
        by_cases h2 : (((s.cell cid).d.mov_daught : Int) <
            (PyTierra.Frac.mul (PyTierra.Frac.ofNat md.size) s.config.mov_prop_thr_div).trunc)
        · rw [if_pos h2]
        · rw [if_neg h2]
          by_cases h3 : (s.config.div_same_siz ≠ 0 ∧ md.size ≠ (s.cell cid).mm.size)
          · rw [if_pos h3]
          · exact absurd hfail (by simp [h1, h2, h3])
  have hcell : (s.setFlagE cid true).cell cid =
      { s.cell cid with cpu := { (s.cell cid).cpu with flag_e := true } } :=
    PyTierra.cell_setCell_self s cid _ hpresent
  refine ⟨hmain, ?_, ?_, ?_, ?_, ?_, ?_, ?_, ?_, ?_⟩ <;> rw [hmain]
  · rfl
  · rfl
  · rfl
  · rfl
  · rfl
  · rfl
  · rw [hcell]
  · rw [hcell]
  · rw [hcell]

/-- C7 witness: the freshly booted creature has no daughter, so its
`divide` fails the first precondition and only sets `E`. -/
theorem c7_divide_witness :
    PyTierra.divideFails PyTierra.c1Boot 0 = true ∧
    PyTierra.instDivide PyTierra.c1Boot 0 = PyTierra.c1Boot.setFlagE 0 true :=
  ⟨by decide,
   (c7_divide_failure_only_sets_e PyTierra.c1Boot 0 (by decide) (by decide)).1⟩

namespace PyTierra

/-- A 16-byte soup hosting one creature at position 0 whose `IP` is 0:
the template after `IP` is the single `nop0` at address 1, ended by the
`ifz` byte at address 2; the complement `nop1` sits at address 3 — the
first address the forward search probes. -/
def c5State : SimState :=
  { config := { c1Config with soup_size := 16, search_limit := 5 },
    soup := { size := 16,
              data := [29, 0, 5, 1, 5, 5, 5, 5, 5, 5, 5, 5, 5, 5, 5, 5],
              free_blocks := [], owners := [] },
    sched := ⟨[0], 0⟩, reaperQueue := [0],
    genebank := ⟨[], []⟩, cells := [(0, Cell.init 0 16)], nextId := 1,
    events := [], inst_executed := 0, last_repro_inst := 0,
    next_disturbance_inst := 0, last_save_inst := 0,
    rng := ⟨[], []⟩ }

end PyTierra

/-- C5 counterexample: with `IP = 0` and a template of length `L = 1`,
the forward search does not begin scanning at `IP+1+L = 2`: its first
probed address is `IP+1+L+1 = 3` (the loop starts at distance 1 from
`search_start = IP+1+L`). -/
theorem c5_forward_scan_start_false :
    PyTierra.readTemplateAux PyTierra.c5State.soup.read 16 16 1 = [0] ∧
    (PyTierra.forwardProbes 16 0 1 PyTierra.c5State.searchMax).head? = some 3 ∧
    (3 : Nat) ≠ (0 + 1 + 1) % 16 :=
  ⟨by decide, by decide, by decide⟩

/-- C5 (amended): the forward template search begins scanning at
`IP+1+L+1` — a complement can never start at `IP+1+L` itself, since its
first byte is a nop while the byte there ended the template — and when
the complement of the template starts exactly at that first probed
address (the search limit being at least 1), the search succeeds and
returns the address one past the matched complement together with `L`. -/
theorem c5_forward_first_probe_match (s : PyTierra.SimState) (ip : Nat)
    (t : List Nat)
    (ht : PyTierra.readTemplateAux s.soup.read s.config.soup_size s.config.soup_size
            ((ip + 1) % s.config.soup_size) = t)
    (hne : ¬(t = []))
    (hmax : 1 ≤ s.searchMax)
    (hmatch : PyTierra.matchesAt s.soup.read
        (((ip + 1 + t.length) % s.config.soup_size + 1) % s.config.soup_size)
        (t.map (fun bit => 1 - bit)) = true) :
    s.findTemplate ip PyTierra.Dir.f =
      (Int.ofNat ((((ip + 1 + t.length) % s.config.soup_size + 1) % s.config.soup_size + t.length) %
        s.config.soup_size), t.length) := by
  obtain ⟨k, hk⟩ : ∃ k, s.searchMax = k + 1 := ⟨s.searchMax - 1, by omega⟩
  unfold PyTierra.SimState.findTemplate
  dsimp only
  rw [ht, if_neg hne]
  unfold PyTierra.forwardProbes
  rw [hk, List.range_succ_eq_map]
  simp only [List.map_cons]
  rw [List.find?_cons_of_pos]
  exact hmatch

/-- C5 witness at the concrete 16-byte soup: the complement `nop1` at
the first probed address 3 is found, and the result is `(4, 1)` — one
past the match, with the template length. -/
theorem c5_forward_witness :
    PyTierra.c5State.findTemplate 0 PyTierra.Dir.f = (Int.ofNat 4, 1) :=
  c5_forward_first_probe_match PyTierra.c5State 0 [0] (by decide) (by decide)
    (by decide) (by decide)

namespace PyTierra

/-- Well-formed free list (the claim's hypothesis): position-sorted,
blocks of positive size inside `[0, S)`, pairwise disjoint with no two
contiguous blocks unmerged (`lo` is the least admissible position, one
past the end of the previous block). -/
def wfFree (S : Nat) : Nat → List (Nat × Nat) → Bool
  | _, [] => true
  | lo, b :: rest =>
    decide (lo ≤ b.1) && decide (0 < b.2) && decide (b.1 + b.2 ≤ S) &&
      wfFree S (b.1 + b.2 + 1) rest

/-- Every block of a well-formed list sits at or after `lo`. -/
lemma wfFree_all_lo (S : Nat) : ∀ (l : List (Nat × Nat)) (lo : Nat),
    wfFree S lo l = true → ∀ y ∈ l, lo ≤ y.1 := by
  intro l
  induction l with
  | nil => intro lo _ y hy; cases hy
  | cons b rest ih =>
    intro lo h y hy
    simp only [wfFree, Bool.and_eq_true, decide_eq_true_eq] at h
    rcases List.mem_cons.mp hy with hy | hy
    · rw [hy]
      exact h.1.1.1
    · have := ih (b.1 + b.2 + 1) h.2 y hy
      omega

/-- Decomposition of well-formedness around a distinguished block. -/
lemma wfFree_decomp (S : Nat) : ∀ (A : List (Nat × Nat)) (lo : Nat) (x : Nat × Nat) (B : List (Nat × Nat)),
    wfFree S lo (A ++ x :: B) = true →
    (∀ a ∈ A, a.1 + a.2 < x.1) ∧ 0 < x.2 ∧ x.1 + x.2 ≤ S ∧
    (∀ b, B.head? = some b → x.1 + x.2 < b.1) := by
  intro A
  induction A with
  | nil =>
    intro lo x B h
    simp only [List.nil_append, wfFree, Bool.and_eq_true, decide_eq_true_eq] at h
    refine ⟨fun a ha => absurd ha (List.not_mem_nil a), h.1.1.2, h.1.2, ?_⟩
    intro b hb
    cases B with
    | nil => cases hb
    | cons b0 B' =>
      simp only [List.head?_cons, Option.some.injEq] at hb
      rw [← hb]
      have := wfFree_all_lo S (b0 :: B') (x.1 + x.2 + 1) h.2 b0 (by simp)
      omega
  | cons a A' ih =>
    intro lo x B h
    simp only [List.cons_append, wfFree, Bool.and_eq_true, decide_eq_true_eq] at h
    have hrest := ih (a.1 + a.2 + 1) x B h.2
    refine ⟨?_, hrest.2.1, hrest.2.2.1, hrest.2.2.2⟩
    intro y hy
    rcases List.mem_cons.mp hy with hy | hy
    · rw [hy]
      have := wfFree_all_lo S (A' ++ x :: B) (a.1 + a.2 + 1) h.2 x (by simp)
      omega
    · exact hrest.1 y hy

/-- `getD` at the junction of a prefix. -/
lemma getD_append_len {α : Type} (A : List α) (x : α) (B : List α) (d : α) :
    (A ++ x :: B).getD A.length d = x := by
  induction A with
  | nil => rfl
  | cons a A' ih =>
    simp only [List.cons_append, List.length_cons, List.getD_cons_succ]
    exact ih

/-- `set` at the junction of a prefix. -/
lemma set_append_len {α : Type} (A : List α) (x : α) (B : List α) (y : α) :
    (A ++ x :: B).set A.length y = A ++ y :: B := by
  induction A with
  | nil => rfl
  | cons a A' ih => simp [ih]

/-- `eraseIdx` at the junction of a prefix. -/
lemma eraseIdx_append_len {α : Type} (A : List α) (x : α) (B : List α) :
    (A ++ x :: B).eraseIdx A.length = A ++ B := by
  induction A with
  | nil => rfl
  | cons a A' ih => simpa using ih

/-- `insertIdx` at the junction of a prefix. -/
lemma insertIdx_append_len {α : Type} (A : List α) (B : List α) (x : α) :
    (A ++ B).insertIdx A.length x = A ++ x :: B := by
  induction A with
  | nil => rfl
  | cons a A' ih => simpa [List.insertIdx_succ_cons] using ih

/-- `bisect_left` lands at the junction when the prefix is below `x` and
the suffix is not. -/
lemma bisectLeft_append (A B : List Nat) (x : Nat)
    (hA : ∀ a ∈ A, a < x) (hB : ∀ b, B.head? = some b → ¬b < x) :
    bisectLeft (A ++ B) x = A.length := by
  induction A with
  | nil =>
    cases B with
    | nil => rfl
    | cons b B' =>
      have := hB b (by simp)
      simp [bisectLeft, List.takeWhile, this]
  | cons a A' ih =>
    have ha := hA a (by simp)
    have ih' := ih (fun a' ha' => hA a' (by simp [ha']))
    simp only [bisectLeft, List.cons_append, List.takeWhile] at ih' ⊢
    simp [ha, ih']

end PyTierra

namespace PyTierra

/-- A selected index is adequate: it names a block at least `size`
large.  Shared target of the four selector lemmas. -/
def goodIdx (size : Nat) (l : List (Nat × Nat)) (i : Nat) : Prop :=
  ∃ b, l.get? i = some b ∧ size ≤ b.2

/-- The first-fit selector picks an adequate index. -/
lemma firstFitIdx_good (size : Nat) : ∀ (l : List (Nat × Nat)) (i : Nat),
    firstFitIdx size l = some i → goodIdx size l i := by
  intro l
  induction l with
  | nil => intro i h; cases h
  | cons b rest ih =>
    intro i h
    unfold firstFitIdx at h
    by_cases hb : size ≤ b.2
    · rw [if_pos hb] at h
      cases h
      exact ⟨b, rfl, hb⟩
    · rw [if_neg hb] at h
      cases hrec : firstFitIdx size rest with
      | none => rw [hrec] at h; cases h
      | some j =>
        rw [hrec] at h
        simp at h
        obtain ⟨b', hb', hsz⟩ := ih j hrec
        refine ⟨b', ?_, hsz⟩
        rw [← h, List.get?_cons_succ]
        exact hb'

/-- The better-fit fold only ever returns an adequate index of the
original list. -/
lemma bestFitAux_good (size : Nat) : ∀ (l : List (Nat × Nat)) (i0 : Nat)
    (best : Option (Nat × Nat)) (l0 : List (Nat × Nat)),
    (∀ j bs, best = some (j, bs) → goodIdx size l0 j) →
    (∀ m, l0.get? (i0 + m) = l.get? m) →
    ∀ j bs, bestFitAux size l i0 best = some (j, bs) → goodIdx size l0 j := by
  intro l
  induction l with
  | nil =>
    intro i0 best l0 hbest _ j bs h
    exact hbest j bs h
  | cons b rest ih =>
    intro i0 best l0 hbest hidx j bs h
    unfold bestFitAux at h
    dsimp only at h
    have hidx' : ∀ m, l0.get? (i0 + 1 + m) = rest.get? m := by
      intro m
      have h1 : i0 + 1 + m = i0 + (m + 1) := by omega
      rw [h1, hidx (m + 1), List.get?_cons_succ]
    have hstep : ∀ (hsz : size ≤ b.2),
        bestFitAux size rest (i0 + 1) (some (i0, b.2)) = some (j, bs) → goodIdx size l0 j := by
      intro hsz hrec
      refine ih (i0 + 1) (some (i0, b.2)) l0 ?_ hidx' j bs hrec
      intro j' bs' he
      cases he
      refine ⟨b, ?_, hsz⟩
      have := hidx 0
      simpa using this
    cases best with
    | none =>
      by_cases hsz : size ≤ b.2
      · simp only [decide_eq_true_eq, if_pos hsz] at h
        exact hstep hsz h
      · simp only [decide_eq_true_eq, if_neg hsz] at h
        exact ih (i0 + 1) none l0 hbest hidx' j bs h
    | some p =>
      by_cases hc : size ≤ b.2 ∧ b.2 < p.2
      · simp only [decide_eq_true_eq, if_pos hc] at h
        exact hstep hc.1 h
      · simp only [decide_eq_true_eq, if_neg hc] at h
        exact ih (i0 + 1) (some p) l0 hbest hidx' j bs h

/-- The better-fit selector picks an adequate index. -/
lemma bestFitIdx_good (size : Nat) (l : List (Nat × Nat)) (i : Nat)
    (h : bestFitIdx size l = some i) : goodIdx size l i := by
  unfold bestFitIdx at h
  cases haux : bestFitAux size l 0 none with
  | none => rw [haux] at h; cases h
  | some p =>
    rw [haux] at h
    simp at h
    rw [← h]
    exact bestFitAux_good size l 0 none l (by intro j bs he; cases he)
      (by intro m; simp) p.1 p.2 (by rw [haux])

/-- The near-mode fold only ever returns an adequate index. -/
lemma nearFitAux_good (soupSize size : Nat) (hint : Int) :
    ∀ (l : List (Nat × Nat)) (i0 : Nat) (best : Option (Nat × Int)) (l0 : List (Nat × Nat)),
    (∀ j d, best = some (j, d) → goodIdx size l0 j) →
    (∀ m, l0.get? (i0 + m) = l.get? m) →
    ∀ j d, nearFitAux soupSize size hint l i0 best = some (j, d) → goodIdx size l0 j := by
  intro l
  induction l with
  | nil =>
    intro i0 best l0 hbest _ j d h
    exact hbest j d h
  | cons b rest ih =>
    intro i0 best l0 hbest hidx j d h
    unfold nearFitAux at h
    dsimp only at h
    have hidx' : ∀ m, l0.get? (i0 + 1 + m) = rest.get? m := by
      intro m
      have h1 : i0 + 1 + m = i0 + (m + 1) := by omega
      rw [h1, hidx (m + 1), List.get?_cons_succ]
    have hstep : ∀ (hsz : size ≤ b.2),
        nearFitAux soupSize size hint rest (i0 + 1) (some (i0, wrapDist soupSize b.1 hint)) = some (j, d) →
          goodIdx size l0 j := by
      intro hsz hrec
      refine ih (i0 + 1) _ l0 ?_ hidx' j d hrec
      intro j' d' he
      cases he
      refine ⟨b, ?_, hsz⟩
      have := hidx 0
      simpa using this
    by_cases hsz : size ≤ b.2
    · rw [if_pos hsz] at h
      cases best with
      | none =>
        simp only [if_true] at h
        exact hstep hsz h
      | some p =>
        by_cases hc : wrapDist soupSize b.1 hint < p.2
        · simp only [decide_eq_true_eq, if_pos hc] at h
          exact hstep hsz h
        · simp only [decide_eq_true_eq, if_neg hc] at h
          exact ih (i0 + 1) (some p) l0 hbest hidx' j d h
    · rw [if_neg hsz] at h
      exact ih (i0 + 1) best l0 hbest hidx' j d h

/-- The tolerance filter preserves adequacy of the near selector. -/
lemma nearFitIdx_good (soupSize size : Nat) (hint tol : Int) (l : List (Nat × Nat)) (i : Nat)
    (h : nearFitIdx soupSize size hint tol l = some i) : goodIdx size l i := by
  unfold nearFitIdx at h
  cases haux : nearFitAux soupSize size hint l 0 none with
  | none => rw [haux] at h; cases h
  | some p =>
    obtain ⟨pj, pd⟩ := p
    rw [haux] at h
    dsimp only at h
    by_cases hc : 0 ≤ tol ∧ tol < pd
    · rw [if_pos hc] at h; cases h
    · rw [if_neg hc] at h
      cases h
      exact nearFitAux_good soupSize size hint l 0 none l (by intro j d he; cases he)
        (by intro m; simp) i pd (by rw [haux])

/-- Every index produced by `adequateIdxs` is adequate. -/
lemma adequateIdxs_good (size : Nat) : ∀ (l : List (Nat × Nat)) (i0 i : Nat),
    i ∈ adequateIdxs size l i0 → ∃ m, i = i0 + m ∧ goodIdx size l m := by
  intro l
  induction l with
  | nil => intro i0 i h; cases h
  | cons b rest ih =>
    intro i0 i h
    unfold adequateIdxs at h
    by_cases hb : size ≤ b.2
    · rw [if_pos hb] at h
      rcases List.mem_cons.mp h with he | hm
      · exact ⟨0, by omega, b, rfl, hb⟩
      · obtain ⟨m, hm1, b', hb', hs⟩ := ih (i0 + 1) i hm
        exact ⟨m + 1, by omega, b', by simpa using hb', hs⟩
    · rw [if_neg hb] at h
      obtain ⟨m, hm1, b', hb', hs⟩ := ih (i0 + 1) i h
      exact ⟨m + 1, by omega, b', by simpa using hb', hs⟩

end PyTierra

namespace PyTierra

/-- Whatever the mode, a chosen index names an adequate block. -/
lemma chooseIdx_good (S size mode : Nat) (hint tol : Int) (blocks : List (Nat × Nat)) (rng : Rng)
    (i : Nat) (h : (chooseIdx S size mode hint tol blocks rng).1 = some i) :
    goodIdx size blocks i := by
  unfold chooseIdx at h
  by_cases h0 : mode = 0
  · rw [if_pos h0] at h
    exact firstFitIdx_good size blocks i h
  · rw [if_neg h0] at h
    by_cases h1 : mode = 1
    · rw [if_pos h1] at h
      exact bestFitIdx_good size blocks i h
    · rw [if_neg h1] at h
      by_cases h2 : mode = 2
      · rw [if_pos h2] at h
        dsimp only at h
        by_cases hade : adequateIdxs size blocks 0 = []
        · rw [if_pos hade] at h
          cases h
        · rw [if_neg hade] at h
          dsimp only at h
          have hlen : 0 < (adequateIdxs size blocks 0).length :=
            List.length_pos.mpr hade
          have hk : (rng.nextInt.1 % (adequateIdxs size blocks 0).length) <
              (adequateIdxs size blocks 0).length := Nat.mod_lt _ hlen
          have hmem : (adequateIdxs size blocks 0).getD
              (rng.nextInt.1 % (adequateIdxs size blocks 0).length) 0 ∈
                adequateIdxs size blocks 0 := by
            rw [List.getD_eq_getElem?_getD, List.getElem?_eq_getElem hk]
            exact List.getElem_mem hk
          obtain ⟨m, hm, hg⟩ := adequateIdxs_good size blocks 0 _ hmem
          simp only [Option.some.injEq] at h
          rw [← h, hm, Nat.zero_add]
          exact hg
      · rw [if_neg h2] at h
        by_cases h3 : (mode = 3 ∨ mode = 4 ∨ mode = 5 ∨ mode = 6) ∧ 0 ≤ hint
        · rw [if_pos h3] at h
          exact nearFitIdx_good S size hint tol blocks i h
        · rw [if_neg h3] at h
          exact bestFitIdx_good size blocks i h

/-- Characterization of a successful `allocate`: some adequate block
`(pos, bs)` at index `i` was selected, the result region is
`(pos, size)`, and the free list either lost the block (exact fit) or
kept its tail `(pos+size, bs-size)`; nothing else changed. -/
lemma allocate_some_spec (s : Soup) (size mode : Nat) (hint tol : Int) (rng : Rng)
    (r : Nat × Nat) (s' : Soup) (rng' : Rng)
    (h : s.allocate size mode hint tol rng = (some r, s', rng')) :
    ∃ i pos bs, s.free_blocks.get? i = some (pos, bs) ∧ size ≤ bs ∧ r = (pos, size) ∧
      s'.size = s.size ∧ s'.data = s.data ∧ s'.owners = s.owners ∧
      s'.free_blocks = (if bs = size then s.free_blocks.eraseIdx i
                        else s.free_blocks.set i (pos + size, bs - size)) := by
  unfold Soup.allocate at h
  by_cases hnil : s.free_blocks = []
  · rw [if_pos hnil] at h
    simp at h
  · rw [if_neg hnil] at h
    dsimp only at h
    cases hch : (chooseIdx s.size size mode hint tol s.free_blocks rng).1 with
    | none =>
      rw [hch] at h
      simp at h
    | some idx =>
      rw [hch] at h
      dsimp only at h
      obtain ⟨b, hb, hsz⟩ := chooseIdx_good s.size size mode hint tol s.free_blocks rng idx hch
      have hgetD : s.free_blocks.getD idx (0, 0) = b := by
        rw [List.getD_eq_getElem?_getD, ← List.get?_eq_getElem?, hb]
        rfl
      rw [hgetD] at h
      by_cases hbe : b.2 = size
      · rw [if_pos hbe] at h
        simp only [Prod.mk.injEq, Option.some.injEq] at h
        refine ⟨idx, b.1, b.2, by rw [hb], hsz, by rw [← h.1], ?_, ?_, ?_, ?_⟩
        · rw [← h.2.1]
        · rw [← h.2.1]
        · rw [← h.2.1]
        · rw [← h.2.1, if_pos hbe]
      · rw [if_neg hbe] at h
        simp only [Prod.mk.injEq, Option.some.injEq] at h
        refine ⟨idx, b.1, b.2, by rw [hb], hsz, by rw [← h.1], ?_, ?_, ?_, ?_⟩
        · rw [← h.2.1]
        · rw [← h.2.1]
        · rw [← h.2.1]
        · rw [← h.2.1, if_neg hbe]

end PyTierra

/-- The merge-with-predecessor step does nothing when the block before
the insertion point ends strictly before the inserted block. -/
lemma mergePrev_skip (l2 A : List (Nat × Nat)) (x : Nat × Nat) (B : List (Nat × Nat))
    (hl2 : l2 = A ++ x :: B)
    (hfa : ∀ a ∈ A, a.1 + a.2 < x.1) :
    (if 0 < A.length then
      if (l2.getD (A.length - 1) (0, 0)).1 + (l2.getD (A.length - 1) (0, 0)).2 =
          (l2.getD A.length (0, 0)).1 then
        (l2.set (A.length - 1)
          ((l2.getD (A.length - 1) (0, 0)).1,
           (l2.getD (A.length - 1) (0, 0)).2 + (l2.getD A.length (0, 0)).2)).eraseIdx A.length
      else l2
    else l2) = l2 := by
  obtain hA | ⟨A0, pa, hA⟩ := List.eq_nil_or_concat A
  · rw [hA]
    simp
  · rw [List.concat_eq_append] at hA
    have hAlen : A.length = A0.length + 1 := by rw [hA]; simp
    have hl2' : l2 = A0 ++ pa :: (x :: B) := by
      rw [hl2, hA]; simp
    have hp : l2.getD (A.length - 1) (0, 0) = pa := by
      rw [hAlen, Nat.add_sub_cancel, hl2']
      exact getD_append_len A0 pa _ _
    have hc : l2.getD A.length (0, 0) = x := by
      rw [hl2]
      exact getD_append_len A x B _
    rw [if_pos (by omega), hp, hc]
    have hne : ¬(pa.1 + pa.2 = x.1) := by
      have := hfa pa (by rw [hA]; simp)
      omega
    rw [if_neg hne]

/-- Deallocating a block that exactly fills the gap between `A` and `B`
(with strict gaps on both sides) inserts it without merging. -/
lemma deallocate_insert_eq (s' : Soup) (A B : List (Nat × Nat)) (pos bs : Nat)
    (hS : pos < s'.size)
    (hfa : ∀ a ∈ A, a.1 + a.2 < pos)
    (hB : ∀ b, B.head? = some b → pos + bs < b.1)
    (hfree : s'.free_blocks = A ++ B) :
    s'.deallocate pos bs = { s' with free_blocks := A ++ (pos, bs) :: B } := by
  unfold Soup.deallocate
  dsimp only
  rw [Nat.mod_eq_of_lt hS, hfree]
  have hbis : bisectLeft ((A ++ B).map (·.1)) pos = A.length := by
    rw [List.map_append]
    have := bisectLeft_append (A.map (·.1)) (B.map (·.1)) pos
      (by
        intro a ha
        obtain ⟨a0, ha0, rfl⟩ := List.mem_map.mp ha
        have := hfa a0 ha0
        omega)
      (by
        intro b hb
        rw [List.head?_map] at hb
        cases hBh : B.head? with
        | none => rw [hBh] at hb; cases hb
        | some b0 =>
          rw [hBh] at hb
          simp at hb
          have := hB b0 hBh
          omega)
    rw [this, List.length_map]
  rw [hbis, insertIdx_append_len]
  cases hBc : B with
  | nil =>
    have hcond : ¬(A.length + 1 < (A ++ (pos, bs) :: ([] : List (Nat × Nat))).length) := by
      simp
    rw [if_neg hcond]
    rw [mergePrev_skip (A ++ (pos, bs) :: []) A (pos, bs) [] rfl hfa]
  | cons nb B2 =>
    have hcond : A.length + 1 < (A ++ (pos, bs) :: nb :: B2).length := by
      simp only [List.length_append, List.length_cons]
      omega
    rw [if_pos hcond]
    have hcg : (A ++ (pos, bs) :: nb :: B2).getD A.length (0, 0) = (pos, bs) :=
      getD_append_len A (pos, bs) _ _
    have hng : (A ++ (pos, bs) :: nb :: B2).getD (A.length + 1) (0, 0) = nb := by
      have he : A ++ (pos, bs) :: nb :: B2 = (A ++ [(pos, bs)]) ++ nb :: B2 := by simp
      have hl : A.length + 1 = (A ++ [(pos, bs)]).length := by simp
      rw [he, hl]
      exact getD_append_len (A ++ [(pos, bs)]) nb B2 _
    rw [hcg, hng]
    have hne2 : ¬(pos + bs = nb.1) := by
      have := hB nb (by rw [hBc]; rfl)
      omega
    rw [if_neg hne2]
    rw [mergePrev_skip (A ++ (pos, bs) :: nb :: B2) A (pos, bs) (nb :: B2) rfl hfa]

/-- Deallocating the front part of a split block merges with the
remainder block to its right, restoring the original block. -/
lemma deallocate_merge_next_eq (s' : Soup) (A B : List (Nat × Nat)) (pos size bs : Nat)
    (hS : pos < s'.size)
    (hlt : size < bs)
    (hfa : ∀ a ∈ A, a.1 + a.2 < pos)
    (hfree : s'.free_blocks = A ++ (pos + size, bs - size) :: B) :
    s'.deallocate pos size = { s' with free_blocks := A ++ (pos, bs) :: B } := by
  unfold Soup.deallocate
  dsimp only
  rw [Nat.mod_eq_of_lt hS, hfree]
  have hbis : bisectLeft ((A ++ (pos + size, bs - size) :: B).map (·.1)) pos = A.length := by
    rw [List.map_append]
    have := bisectLeft_append (A.map (·.1)) (((pos + size, bs - size) :: B).map (·.1)) pos
      (by
        intro a ha
        obtain ⟨a0, ha0, rfl⟩ := List.mem_map.mp ha
        have := hfa a0 ha0
        omega)
      (by
        intro b hb
        simp only [List.map_cons, List.head?_cons, Option.some.injEq] at hb
        omega)
    rw [this, List.length_map]
  rw [hbis, insertIdx_append_len]
  have hcond : A.length + 1 < (A ++ (pos, size) :: (pos + size, bs - size) :: B).length := by
    simp only [List.length_append, List.length_cons]
    omega
  rw [if_pos hcond]
  have hcg : (A ++ (pos, size) :: (pos + size, bs - size) :: B).getD A.length (0, 0) = (pos, size) :=
    getD_append_len A (pos, size) _ _
  have hng : (A ++ (pos, size) :: (pos + size, bs - size) :: B).getD (A.length + 1) (0, 0) =
      (pos + size, bs - size) := by
    have he : A ++ (pos, size) :: (pos + size, bs - size) :: B =
        (A ++ [(pos, size)]) ++ (pos + size, bs - size) :: B := by simp
    have hl : A.length + 1 = (A ++ [(pos, size)]).length := by simp
    rw [he, hl]
    exact getD_append_len (A ++ [(pos, size)]) (pos + size, bs - size) B _
  rw [hcg, hng]
  dsimp only
  rw [if_pos rfl]
  have hset : (A ++ (pos, size) :: (pos + size, bs - size) :: B).set A.length
      (pos, size + (bs - size)) = A ++ (pos, size + (bs - size)) :: (pos + size, bs - size) :: B :=
    set_append_len A (pos, size) _ _
  rw [hset]
  have hbs : size + (bs - size) = bs := by omega
  rw [hbs]
  have her : (A ++ (pos, bs) :: (pos + size, bs - size) :: B).eraseIdx (A.length + 1) =
      A ++ (pos, bs) :: B := by
    have he : A ++ (pos, bs) :: (pos + size, bs - size) :: B =
        (A ++ [(pos, bs)]) ++ (pos + size, bs - size) :: B := by simp
    have hl : A.length + 1 = (A ++ [(pos, bs)]).length := by simp
    rw [he, hl, eraseIdx_append_len]
    simp
  rw [her]
  rw [mergePrev_skip (A ++ (pos, bs) :: B) A (pos, bs) B rfl hfa]

/-- `eraseIdx_append_len` with the index given as an equation. -/
lemma eraseIdx_append_at {α : Type} (A : List α) (x : α) (B : List α) (n : Nat)
    (h : n = A.length) : (A ++ x :: B).eraseIdx n = A ++ B := by
  rw [h]
  exact PyTierra.eraseIdx_append_len A x B

/-- `set_append_len` with the index given as an equation. -/
lemma set_append_at {α : Type} (A : List α) (x : α) (B : List α) (y : α) (n : Nat)
    (h : n = A.length) : (A ++ x :: B).set n y = A ++ y :: B := by
  rw [h]
  exact PyTierra.set_append_len A x B y

/-- C8: from a well-formed free list — position-sorted, pairwise
disjoint, no two contiguous blocks unmerged, blocks positive and within
the soup — a successful `allocate(size, mode)` followed immediately by
`deallocate` of the returned range restores the soup exactly, for every
allocation mode, hint, tolerance and RNG stream. -/
theorem c8_allocate_deallocate_roundtrip (s : PyTierra.Soup) (size mode : Nat)
    (hint tol : Int) (rng : PyTierra.Rng) (pos sz : Nat) (s' : PyTierra.Soup)
    (rng' : PyTierra.Rng)
    (hwf : PyTierra.wfFree s.size 0 s.free_blocks = true)
    (halloc : s.allocate size mode hint tol rng = (some (pos, sz), s', rng')) :
    s'.deallocate pos sz = s := by
  obtain ⟨i, p0, bs, hget, hsz, hr, hsize, hdata, howners, hfree⟩ :=
    PyTierra.allocate_some_spec s size mode hint tol rng (pos, sz) s' rng' halloc
  injection hr with hpos hszsz
  subst hpos
  subst hszsz
  have hilen : i < s.free_blocks.length := by
    by_contra hcon
    rw [List.get?_eq_none.mpr (Nat.le_of_not_lt hcon)] at hget
    cases hget
  have hdecomp : s.free_blocks =
      s.free_blocks.take i ++ (pos, bs) :: s.free_blocks.drop (i + 1) := by
    have h1 : s.free_blocks.drop i = (pos, bs) :: s.free_blocks.drop (i + 1) := by
      rw [List.drop_eq_getElem_cons hilen]
      have : s.free_blocks[i] = (pos, bs) := by
        have := List.get?_eq_getElem? s.free_blocks i
        rw [hget, List.getElem?_eq_getElem hilen] at this
        exact (Option.some.injEq _ _).mp this.symm
      rw [this]
    rw [← h1]
    exact (List.take_append_drop i s.free_blocks).symm
  have hAlen : (s.free_blocks.take i).length = i :=
    List.length_take_of_le (Nat.le_of_lt hilen)
  obtain ⟨hfa, hbs, hinS, hBhead⟩ :=
    PyTierra.wfFree_decomp s.size (s.free_blocks.take i) 0 (pos, bs)
      (s.free_blocks.drop (i + 1)) (by rw [← hdecomp]; exact hwf)
  have hposS : pos < s'.size := by
    rw [hsize]
    omega
  by_cases hbe : bs = sz
  · rw [if_pos hbe] at hfree
    rw [hdecomp] at hfree
    rw [eraseIdx_append_at _ _ _ _ hAlen.symm] at hfree
    have hd := deallocate_insert_eq s' (s.free_blocks.take i)
      (s.free_blocks.drop (i + 1)) pos bs hposS hfa
      (by intro b hb; exact hBhead b hb) hfree
    rw [hbe] at hd
    rw [hd]
    rw [← hbe]
    cases s'
    cases s
    simp only at hsize hdata howners ⊢
    rw [hsize, hdata, howners, ← hdecomp]
  · rw [if_neg hbe] at hfree
    rw [hdecomp] at hfree
    rw [set_append_at _ _ _ _ _ hAlen.symm] at hfree
    have hlt : sz < bs := Nat.lt_of_le_of_ne hsz (fun he => hbe he.symm)
    have hd := deallocate_merge_next_eq s' (s.free_blocks.take i)
      (s.free_blocks.drop (i + 1)) pos sz bs hposS hlt hfa hfree
    rw [hd]
    cases s'
    cases s
    simp only at hsize hdata howners ⊢
    rw [hsize, hdata, howners, ← hdecomp]

namespace PyTierra

/-- Concrete soup for the round-trip witness: two separated free blocks
of four bytes each in a 14-byte soup. -/
def c8TestSoup : Soup :=
  { size := 14, data := List.replicate 14 0,
    free_blocks := [(0, 4), (10, 4)], owners := [] }

end PyTierra

/-- C8 witness: better-fit allocation of 2 bytes takes the front of the
first block, and deallocating the returned range merges it back,
restoring the free list exactly. -/
theorem c8_roundtrip_witness :
    PyTierra.wfFree PyTierra.c8TestSoup.size 0 PyTierra.c8TestSoup.free_blocks = true ∧
    ({ PyTierra.c8TestSoup with free_blocks := [(2, 2), (10, 4)] } : PyTierra.Soup).deallocate 0 2 =
      PyTierra.c8TestSoup :=
  ⟨by decide,
   c8_allocate_deallocate_roundtrip PyTierra.c8TestSoup 2 1 (-1) (-1) ⟨[], []⟩ 0 2
     { PyTierra.c8TestSoup with free_blocks := [(2, 2), (10, 4)] } ⟨[], []⟩
     (by decide) (by decide)⟩
